import Mathlib

/-!
# Cycles denoising prefilter kernels

A shallow embedding of `intern/cycles/filter/filter_prefilter.h`:
`kernel_filter_divide_shadow`, `kernel_filter_get_feature` and
`kernel_filter_combine_halves`.

Modelling conventions.

* `float` values are exact rationals (`ℚ`): every arithmetic operation is the
  exact one, so rounding, infinities and NaN are outside the model. The float
  literals `0.5f`, `0.25f`, `1e-7f`, `0.0f` are `1/2`, `1/4`, `1/10000000`, `0`.
  Where the source divides a float by zero it stores an infinity or NaN; the
  quotient of the model has the value `0` there and no meaning. A statement
  that gives a stored value as the quotient the source forms is an identity of
  expressions; a statement that draws a consequence from such a value carries
  the range of `sample` on which no divisor is zero.
* `int` values are mathematical integers (`Int`). The int products that the
  kernels use as divisors (`sample*sample`, `sample*(sample-1)`,
  `odd_sample*(sample-1)`, `even_sample*(sample-1)`) are formed in signed 32-bit
  arithmetic with two's-complement wrap (`wrap_int32`), as is the sum
  `sample+1` of `kernel_filter_get_feature`; pixel coordinates, offsets and
  indices are exact, and so are `sample+1`, `odd_sample-1` and `even_sample-1`
  in `kernel_filter_divide_shadow` (they differ from the 32-bit values only at
  `sample = 2^31 - 1`). The C division of two ints truncates toward zero and is
  `Int.tdiv`. An `int` used in a float expression is cast to `ℚ`.
* A `float*` array is a total map `Int → ℚ` from element index to value; a
  store is `Function.update`. Distinct pointer arguments are distinct arrays.
  A pointer into a tile buffer is the pair of the tile index and an element
  offset; the nine tile buffers are distinct arrays.
* A kernel that writes through pointers returns the written arrays. The local
  array `values[25]` of `kernel_filter_combine_halves` is bounded: a store past
  its end, or a read of an element that was never stored, makes the call
  return `none`.
* A counted `for` loop whose body does not assign the loop variable is a
  recursion on the number of iterations left.
-/

namespace FilterPrefilter

/-! ## Data model -/

/-- Modelled from the spec: the `int4` vector type of the kernel utilities (declared
outside these sources). A rect is the integer box `(x0, y0, x1, y1)` stored as
`(x, y, z, w)`, lower pixels inclusive, upper pixels exclusive. -/
structure Int4 where
  x : Int
  y : Int
  z : Int
  w : Int

/-- Modelled from the spec: the `TilesInfo` mosaic (declared outside these sources):
nine tile descriptors indexed `row*3+col`, each with a float buffer, a scalar
element offset and a row stride, and two boundary arrays of four entries. -/
structure TilesInfo where
  offsets : Int → Int
  strides : Int → Int
  x : Int → Int
  y : Int → Int
  buffers : Int → Int → ℚ

/-- Modelled from the spec: the helper `align_up` (declared outside these sources):
the row width is padded up to a multiple of `alignment` elements, i.e. the least
multiple of `alignment` that is at least `offset`. -/
def align_up (offset alignment : Int) : Int :=
  ((offset + alignment - 1) / alignment) * alignment

/-- Modelled from the spec: the float helper `max` (declared outside these sources);
`max(d, 1e-7)` floors the denominator at `1e-7`, i.e. it is the larger argument. -/
def max_float (a b : ℚ) : ℚ := if a > b then a else b

/-- The float literal `1e-7f`. -/
def eps : ℚ := 1 / 10000000

/-- The value of an exact integer result after wrapping to a signed 32-bit `int`
(two's complement): the representative of `n` modulo `2^32` in `[-2^31, 2^31 - 1]`. -/
def wrap_int32 (n : Int) : Int := (n + 2147483648) % 4294967296 - 2147483648

/-! ## Addressing shared by the kernels -/

/-- Column band: `int xtile = (x < tiles->x[1])? 0: ((x < tiles->x[2])? 1: 2);`. -/
def xtile (tiles : TilesInfo) (x : Int) : Int :=
  if x < tiles.x 1 then 0 else (if x < tiles.x 2 then 1 else 2)

/-- Row band: `int ytile = (y < tiles->y[1])? 0: ((y < tiles->y[2])? 1: 2);`. -/
def ytile (tiles : TilesInfo) (y : Int) : Int :=
  if y < tiles.y 1 then 0 else (if y < tiles.y 2 then 1 else 2)

/-- Tile index: `int tile = ytile*3+xtile;`. -/
def tile (tiles : TilesInfo) (x y : Int) : Int :=
  ytile tiles y * 3 + xtile tiles x

/-- Element offset of the pixel record inside its tile buffer:
`(tiles->offsets[tile] + y*tiles->strides[tile] + x)*buffer_pass_stride`. -/
def center_offset (tiles : TilesInfo) (x y buffer_pass_stride : Int) : Int :=
  (tiles.offsets (tile tiles x y) + y * tiles.strides (tile tiles x y) + x) * buffer_pass_stride

/-- Row width of the output arrays: `int buffer_w = align_up(rect.z - rect.x, 4);`. -/
def buffer_w (rect : Int4) : Int := align_up (rect.z - rect.x) 4

/-- Output index: `int idx = (y-rect.y)*buffer_w + (x - rect.x);`. -/
def idx (rect : Int4) (x y : Int) : Int :=
  (y - rect.y) * buffer_w rect + (x - rect.x)

/-! ## `kernel_filter_divide_shadow` -/

/-- The five output arrays of `kernel_filter_divide_shadow`. -/
structure ShadowBuffers where
  unfilteredA : Int → ℚ
  unfilteredB : Int → ℚ
  sampleVariance : Int → ℚ
  sampleVarianceV : Int → ℚ
  bufferVariance : Int → ℚ

/-- The store `center_buffer[0] = center_buffer[1] = center_buffer[2] = center_buffer[3] = 0.0f`
through a pointer to element `base` of tile `t` (assigned right to left). -/
def zero_gradients (tiles : TilesInfo) (t base : Int) : TilesInfo :=
  { tiles with
    buffers := Function.update tiles.buffers t
      (Function.update (Function.update (Function.update (Function.update
        (tiles.buffers t) (base + 3) 0) (base + 2) 0) (base + 1) 0) (base + 0) 0) }

/-- The tile buffers after `if(use_gradients && tile == 4) { ... }`. -/
def divide_shadow_tiles (tiles : TilesInfo) (x y buffer_pass_stride : Int)
    (use_gradients : Bool) : TilesInfo :=
  if use_gradients && tile tiles x y == 4 then
    zero_gradients tiles (tile tiles x y) (center_offset tiles x y buffer_pass_stride)
  else tiles

/-- The record `center_buffer[k]` read by `kernel_filter_divide_shadow` after
`center_buffer += buffer_denoising_offset` (and after the optional zeroing). -/
def divide_shadow_center_buffer (tiles : TilesInfo) (x y buffer_pass_stride
    buffer_denoising_offset : Int) (use_gradients : Bool) (k : Int) : ℚ :=
  (divide_shadow_tiles tiles x y buffer_pass_stride use_gradients).buffers (tile tiles x y)
    (center_offset tiles x y buffer_pass_stride + buffer_denoising_offset + k)

/-- In `kernel_filter_divide_shadow`: `int odd_sample = (sample+1)/2;`. -/
def divide_shadow_odd_sample (sample : Int) : Int := (sample + 1).tdiv 2

/-- In `kernel_filter_divide_shadow`: `int even_sample = sample/2;`. -/
def divide_shadow_even_sample (sample : Int) : Int := sample.tdiv 2

/-- The local `varA` of `kernel_filter_divide_shadow`, from the record `cb` and the
value `uA` read back from `unfilteredA[idx]`. -/
def divide_shadow_varA (sample : Int) (cb : Int → ℚ) (uA : ℚ) (use_split_variance : Bool) : ℚ :=
  if use_split_variance then
    (cb 16 - uA * uA * (divide_shadow_odd_sample sample : ℚ))
      / ((divide_shadow_odd_sample sample - 1 : Int) : ℚ)
  else
    cb 16 / ((divide_shadow_odd_sample sample - 1 : Int) : ℚ)

/-- The local `varB` of `kernel_filter_divide_shadow`, from the record `cb` and the
value `uB` read back from `unfilteredB[idx]`. -/
def divide_shadow_varB (sample : Int) (cb : Int → ℚ) (uB : ℚ) (use_split_variance : Bool) : ℚ :=
  if use_split_variance then
    (cb 19 - uB * uB * (divide_shadow_even_sample sample : ℚ))
      / ((divide_shadow_even_sample sample - 1 : Int) : ℚ)
  else
    cb 19 / ((divide_shadow_even_sample sample - 1 : Int) : ℚ)

/-- The kernel `kernel_filter_divide_shadow`: returns the tile buffers (changed only by
the gradient zeroing) and the five output arrays after the call. The int product
`sample*sample` of line 70 is formed in 32-bit arithmetic. The float divisions of lines
61-70 have the int divisors `odd_sample - 1`, `even_sample - 1`, `sample` and
`sample*sample`; where one of them is zero the source stores an infinity or NaN, which
the rational arrays cannot hold, so `sampleVariance` and `sampleVarianceV` are meaningful
only where these divisors are not zero. -/
def kernel_filter_divide_shadow (sample : Int) (tiles : TilesInfo) (x y : Int)
    (out : ShadowBuffers) (rect : Int4) (buffer_pass_stride buffer_denoising_offset : Int)
    (use_gradients use_split_variance : Bool) : TilesInfo × ShadowBuffers :=
  let tiles1 := divide_shadow_tiles tiles x y buffer_pass_stride use_gradients
  let center_buffer : Int → ℚ :=
    divide_shadow_center_buffer tiles x y buffer_pass_stride buffer_denoising_offset use_gradients
  let i := idx rect x y
  let unfilteredA := Function.update out.unfilteredA i
    (center_buffer 15 / max_float (center_buffer 14) eps)
  let unfilteredB := Function.update out.unfilteredB i
    (center_buffer 18 / max_float (center_buffer 17) eps)
  let varA := divide_shadow_varA sample center_buffer (unfilteredA i) use_split_variance
  let varB := divide_shadow_varB sample center_buffer (unfilteredB i) use_split_variance
  let sampleVariance := Function.update out.sampleVariance i
    ((1 / 2) * (varA + varB) / (sample : ℚ))
  let sampleVarianceV := Function.update out.sampleVarianceV i
    ((1 / 2) * (varA - varB) * (varA - varB) / ((wrap_int32 (sample * sample) : Int) : ℚ))
  let bufferVariance := Function.update out.bufferVariance i
    ((1 / 2) * (unfilteredA i - unfilteredB i) * (unfilteredA i - unfilteredB i))
  (tiles1,
    { unfilteredA := unfilteredA
      unfilteredB := unfilteredB
      sampleVariance := sampleVariance
      sampleVarianceV := sampleVarianceV
      bufferVariance := bufferVariance })

/-! ## `kernel_filter_get_feature` -/

/-- The three branches of the `if / else if / else` chain of `kernel_filter_get_feature`. -/
inductive FeatureCase where
  | cross
  | high
  | default
  deriving DecidableEq, Repr

/-- The branch taken by `kernel_filter_get_feature`:
`if(m_offset >= 20 && m_offset <= 22 && use_cross_denoising) ... else if(m_offset >= 26) ... else ...`. -/
def feature_case (m_offset : Int) (use_cross_denoising : Bool) : FeatureCase :=
  if m_offset ≥ 20 && m_offset ≤ 22 && use_cross_denoising then FeatureCase.cross
  else if m_offset ≥ 26 then FeatureCase.high
  else FeatureCase.default

/-- The record `center_buffer[k]` read by `kernel_filter_get_feature`: the pointer
already includes `buffer_denoising_offset`. -/
def get_feature_center_buffer (tiles : TilesInfo) (x y buffer_pass_stride
    buffer_denoising_offset : Int) (k : Int) : ℚ :=
  tiles.buffers (tile tiles x y)
    (center_offset tiles x y buffer_pass_stride + buffer_denoising_offset + k)

/-- In the first branch of `kernel_filter_get_feature`: `int odd_sample = sample/2;`. -/
def get_feature_odd_sample (sample : Int) : Int := sample.tdiv 2

/-- In the second branch of `kernel_filter_get_feature`: `int even_sample = (sample+1)/2;`,
the sum formed in 32-bit arithmetic. -/
def get_feature_even_sample (sample : Int) : Int := (wrap_int32 (sample + 1)).tdiv 2

/-- The kernel `kernel_filter_get_feature`: returns the `mean` and `variance` arrays
after the call. The int products `odd_sample * (sample-1)`, `even_sample * (sample-1)` and
`sample * (sample-1)` of lines 104-126 are formed in 32-bit arithmetic. -/
def kernel_filter_get_feature (sample : Int) (tiles : TilesInfo) (m_offset v_offset : Int)
    (x y : Int) (mean variance : Int → ℚ) (rect : Int4)
    (buffer_pass_stride buffer_denoising_offset : Int)
    (use_cross_denoising use_split_variance : Bool) : (Int → ℚ) × (Int → ℚ) :=
  let center_buffer : Int → ℚ :=
    get_feature_center_buffer tiles x y buffer_pass_stride buffer_denoising_offset
  let i := idx rect x y
  match feature_case m_offset use_cross_denoising with
  | FeatureCase.cross =>
    let odd_sample := get_feature_odd_sample sample
    let mean1 := Function.update mean i
      ((center_buffer m_offset - center_buffer (m_offset + 6)) / (odd_sample : ℚ))
    if use_split_variance then
      (mean1, Function.update variance i
        ((center_buffer v_offset - center_buffer m_offset / (sample : ℚ))
          / ((wrap_int32 (odd_sample * wrap_int32 (sample - 1)) : Int) : ℚ)))
    else
      (mean1, Function.update variance i
        (center_buffer v_offset
          / ((wrap_int32 (odd_sample * wrap_int32 (sample - 1)) : Int) : ℚ)))
  | FeatureCase.high =>
    let even_sample := get_feature_even_sample sample
    let mean1 := Function.update mean i (center_buffer m_offset / (even_sample : ℚ))
    if use_split_variance then
      (mean1, Function.update variance i
        ((center_buffer (v_offset - 6) - center_buffer (m_offset - 6) / (sample : ℚ))
          / ((wrap_int32 (even_sample * wrap_int32 (sample - 1)) : Int) : ℚ)))
    else
      (mean1, Function.update variance i
        (center_buffer (v_offset - 6)
          / ((wrap_int32 (even_sample * wrap_int32 (sample - 1)) : Int) : ℚ)))
  | FeatureCase.default =>
    let mean1 := Function.update mean i (center_buffer m_offset / (sample : ℚ))
    if use_split_variance then
      (mean1, Function.update variance i
        ((center_buffer v_offset - mean1 i)
          / ((wrap_int32 (sample * wrap_int32 (sample - 1)) : Int) : ℚ)))
    else
      (mean1, Function.update variance i
        (center_buffer v_offset
          / ((wrap_int32 (sample * wrap_int32 (sample - 1)) : Int) : ℚ)))

/-! ## `kernel_filter_combine_halves` -/

/-- Modelled from the spec: the integer helper `max` (declared outside these sources),
the larger of two ints; it clips the window at the lower rect bounds. -/
def max_int (a b : Int) : Int := if a > b then a else b

/-- Modelled from the spec: the integer helper `min` (declared outside these sources),
the smaller of two ints; it clips the window at the upper rect bounds. -/
def min_int (a b : Int) : Int := if a < b then a else b

/-- The local array `float values[25]` with the counter `int numValues`. Elements at
indices `numValues` and above are uninitialised; they are never read by the model. -/
structure Values where
  values : Nat → ℚ
  numValues : Nat

/-- The store `values[numValues++] = v`. A store past the 25 elements of the array is
undefined behaviour and gives `none`. -/
def Values.push (s : Values) (v : ℚ) : Option Values :=
  if s.numValues < 25 then
    some { values := Function.update s.values s.numValues v, numValues := s.numValues + 1 }
  else none

/-- The counted loop `for(int i = lo; i < hi; i++) body` whose body does not assign `i`:
it runs `hi - lo` times (not at all when `hi ≤ lo`). The recursion is on the number `n`
of iterations left, `i` is the loop variable. -/
def for_loop {σ : Type} (body : Int → σ → Option σ) : Nat → Int → σ → Option σ
  | 0, _, s => some s
  | n + 1, i, s => (body i s).bind (for_loop body n (i + 1))

/-- The loop `for(int i = lo; i < hi; i++) body`. -/
def for_range {σ : Type} (lo hi : Int) (body : Int → σ → Option σ) (s : σ) : Option σ :=
  for_loop body (hi - lo).toNat lo s

/-- The value gathered for window pixel `(px, py)`:
`0.25f * (a[pidx]-b[pidx])*(a[pidx]-b[pidx])` with `pidx = (py-rect.y)*buffer_w + (px-rect.x)`. -/
def window_value (a b : Int → ℚ) (rect : Int4) (px py : Int) : ℚ :=
  (1 / 4) * (a (idx rect px py) - b (idx rect px py)) * (a (idx rect px py) - b (idx rect px py))

/-- The two nested window loops of `kernel_filter_combine_halves`, starting from
`numValues = 0`. -/
def gather_values (a b : Int → ℚ) (rect : Int4) (x y r : Int) : Option Values :=
  for_range (max_int (y - r) rect.y) (min_int (y + r + 1) rect.w)
    (fun py s =>
      for_range (max_int (x - r) rect.x) (min_int (x + r + 1) rect.z)
        (fun px s1 => s1.push (window_value a b rect px py)) s)
    { values := fun _ => 0, numValues := 0 }

/-- The inner loop of the insertion sort together with the store that follows it:
`for(j = i-1; j >= 0 && values[j] > v; j--) values[j+1] = values[j]; values[j+1] = v;`.
The recursion argument is `j+1`, so `j >= 0` is the successor case. -/
def insert_value (v : ℚ) : Nat → (Nat → ℚ) → (Nat → ℚ)
  | 0, values => Function.update values 0 v
  | j + 1, values =>
    if values j > v then insert_value v j (Function.update values (j + 1) (values j))
    else Function.update values (j + 1) v

/-- The outer loop `for(int i = 1; i < numValues; i++) { float v = values[i]; ... }`,
by recursion on the number `n` of iterations left (`numValues - i`). -/
def sort_loop : Nat → Nat → (Nat → ℚ) → (Nat → ℚ)
  | 0, _, values => values
  | n + 1, i, values => sort_loop n (i + 1) (insert_value (values i) i values)

/-- The insertion sort of `values[0 .. numValues-1]`, with `i` starting at 1. -/
def insertion_sort (s : Values) : Nat → ℚ :=
  sort_loop (s.numValues - 1) 1 s.values

/-- The kernel `kernel_filter_combine_halves`. A null `mean` or `variance` pointer is
`none`; the result is the pair of arrays after the call, or `none` when the call has
undefined behaviour (a store past `values[24]`, or a read of an uninitialised element
of `values`). -/
def kernel_filter_combine_halves (x y : Int) (mean variance : Option (Int → ℚ))
    (a b : Int → ℚ) (rect : Int4) (r : Int) :
    Option (Option (Int → ℚ) × Option (Int → ℚ)) :=
  let i := idx rect x y
  let mean1 := mean.map (fun m => Function.update m i ((1 / 2) * (a i + b i)))
  match variance with
  | none => some (mean1, none)
  | some var =>
    if r = 0 then
      some (mean1, some (Function.update var i ((1 / 4) * (a i - b i) * (a i - b i))))
    else
      (gather_values a b rect x y r).bind (fun s =>
        if 7 * s.numValues / 8 < s.numValues then
          some (mean1, some (Function.update (Function.update var i 0) i
            (insertion_sort s (7 * s.numValues / 8))))
        else none)

/-! ## Reference definitions following the specification -/

/-- The clipped window of the spec: `[x-r, x+r] × [y-r, y+r]` intersected with the rect
(`x0`, `y0` inclusive, `x1`, `y1` exclusive). -/
def window (rect : Int4) (x y r : Int) : Finset (Int × Int) :=
  (Finset.Icc (x - r) (x + r) ×ˢ Finset.Icc (y - r) (y + r)) ∩
    (Finset.Ico rect.x rect.z ×ˢ Finset.Ico rect.y rect.w)

/-- The multiset `{ 0.25*(a[p]-b[p])^2 : p in window }` of the spec, one value for each
window pixel. -/
def window_values (a b : Int → ℚ) (rect : Int4) (x y r : Int) : Multiset ℚ :=
  (window rect x y r).val.map
    (fun p => (1 / 4) * (a (idx rect p.1 p.2) - b (idx rect p.1 p.2)) ^ 2)

/-! ## Lists read off the arrays (used to state the loop invariants) -/

/-- The initialised part `values[0], ..., values[n-1]` of an array, as a list. -/
def values_list (values : Nat → ℚ) (n : Nat) : List ℚ := (List.range n).map values

/-- The pixels `(lo_x + k, py)`, `k < w`, of one window row, in loop order. -/
def row_pixels (lo_x : Int) (w : Nat) (py : Int) : List (Int × Int) :=
  (List.range w).map (fun (k : Nat) => (lo_x + (k : Int), py))

/-- The pixels of `h` window rows of width `w` starting at `(lo_x, lo_y)`, in loop order. -/
def grid_pixels (lo_x lo_y : Int) (w h : Nat) : List (Int × Int) :=
  (List.range h).flatMap (fun (k : Nat) => row_pixels lo_x w (lo_y + (k : Int)))

/-! ## Tile addressing as the specification words it -/

/-- The largest `b` in `0..3` with `c ≥ boundary[b]` (0 when there is none), searched
from the top of the four-entry boundary array. -/
def largest_band (boundary : Int → Int) (c : Int) : Int :=
  if boundary 3 ≤ c then 3 else if boundary 2 ≤ c then 2 else if boundary 1 ≤ c then 1 else 0

/-- The band of the spec: the largest `b` such that `c >= boundary[b]`, clamped to
`{0,1,2}`. -/
def spec_band (boundary : Int → Int) (c : Int) : Int :=
  min 2 (largest_band boundary c)

/-! ## The kernels as transformers of the memory they can reach -/

/-- The memory reachable from the arguments of `kernel_filter_get_feature`: the mosaic
and the two output arrays. -/
structure FeatureMemory where
  tiles : TilesInfo
  mean : Int → ℚ
  variance : Int → ℚ

/-- The memory after a call of `kernel_filter_get_feature`. The kernel only reads through
`center_buffer` (lines 102-126 have no store to it), so the mosaic is passed on as it is;
the stores are those to `mean[idx]` and `variance[idx]`. -/
def get_feature_memory (sample : Int) (m : FeatureMemory) (m_offset v_offset x y : Int)
    (rect : Int4) (buffer_pass_stride buffer_denoising_offset : Int)
    (use_cross_denoising use_split_variance : Bool) : FeatureMemory :=
  { tiles := m.tiles
    mean := (kernel_filter_get_feature sample m.tiles m_offset v_offset x y m.mean m.variance
      rect buffer_pass_stride buffer_denoising_offset use_cross_denoising use_split_variance).1
    variance := (kernel_filter_get_feature sample m.tiles m_offset v_offset x y m.mean
      m.variance rect buffer_pass_stride buffer_denoising_offset use_cross_denoising
      use_split_variance).2 }

/-- The memory around a call of `kernel_filter_combine_halves`: the mosaic (the kernel has
no `TilesInfo` argument), the two optional output arrays and the two half buffers. -/
structure CombineMemory where
  tiles : TilesInfo
  mean : Option (Int → ℚ)
  variance : Option (Int → ℚ)
  a : Int → ℚ
  b : Int → ℚ

/-- The memory after a call of `kernel_filter_combine_halves`: the only stores of the
kernel are those to `mean[idx]` and `variance[idx]` (and to its local array), so the
mosaic and the half buffers `a`, `b` are passed on as they are. -/
def combine_halves_memory (m : CombineMemory) (x y : Int) (rect : Int4) (r : Int) :
    Option CombineMemory :=
  (kernel_filter_combine_halves x y m.mean m.variance m.a m.b rect r).map
    (fun p => { tiles := m.tiles, mean := p.1, variance := p.2, a := m.a, b := m.b })

/-! ## Signed 32-bit arithmetic -/

/-- The divisor `sample*sample` of `kernel_filter_divide_shadow` (line 70) in 32-bit
arithmetic. -/
def divide_shadow_divisor32 (sample : Int) : Int := wrap_int32 (sample * sample)

/-- The divisor `sample * (sample-1)` of the default case of `kernel_filter_get_feature`
(lines 123, 126) in 32-bit arithmetic. -/
def get_feature_default_divisor32 (sample : Int) : Int :=
  wrap_int32 (sample * wrap_int32 (sample - 1))

/-- The divisor `odd_sample * (sample-1)` with `odd_sample = sample/2` of the
cross-denoising case of `kernel_filter_get_feature` (lines 104, 107) in 32-bit arithmetic. -/
def get_feature_cross_divisor32 (sample : Int) : Int :=
  wrap_int32 (sample.tdiv 2 * wrap_int32 (sample - 1))

/-- The divisor `even_sample * (sample-1)` with `even_sample = (sample+1)/2` of the
high-offset case of `kernel_filter_get_feature` (lines 114, 117) in 32-bit arithmetic. -/
def get_feature_high_divisor32 (sample : Int) : Int :=
  wrap_int32 ((wrap_int32 (sample + 1)).tdiv 2 * wrap_int32 (sample - 1))

/-! ## Concrete inputs -/

/-- A mosaic whose centre tile covers `0 ≤ x < 4`, `0 ≤ y < 4`; every pixel record holds
1 in slots 14, 15, 17 and 26 and 0 elsewhere (relative to its start, `pass_stride = 40`). -/
def sample_tiles : TilesInfo where
  offsets := fun _ => 0
  strides := fun _ => 4
  x := fun k => 4 * k - 4
  y := fun k => 4 * k - 4
  buffers := fun _ e => if e % 40 = 14 ∨ e % 40 = 15 ∨ e % 40 = 17 ∨ e % 40 = 26 then 1 else 0

/-- The rect `(0, 0, 4, 4)`. -/
def sample_rect : Int4 := { x := 0, y := 0, z := 4, w := 4 }

/-- Output arrays filled with zeros. -/
def zero_buffers : ShadowBuffers where
  unfilteredA := fun _ => 0
  unfilteredB := fun _ => 0
  sampleVariance := fun _ => 0
  sampleVarianceV := fun _ => 0
  bufferVariance := fun _ => 0

/-- The sample mosaic with the value 1 in every slot of every tile buffer. -/
def ones_tiles : TilesInfo where
  offsets := fun _ => 0
  strides := fun _ => 4
  x := fun k => 4 * k - 4
  y := fun k => 4 * k - 4
  buffers := fun _ _ => 1

/-! ## Basic facts about the embedding -/

theorem max_float_ge_right (a b : ℚ) : b ≤ max_float a b := by
  unfold max_float
  split_ifs with h
  · exact le_of_lt h
  · exact le_refl b

theorem eps_pos : 0 < eps := by
  unfold eps
  norm_num

theorem tdiv_two_eq_ediv (n : Int) (h : 0 ≤ n) : n.tdiv 2 = n / 2 :=
  Int.tdiv_eq_ediv h (by decide)

theorem divide_shadow_odd_sample_eq_ceil (sample : Int) (h : 0 ≤ sample) :
    divide_shadow_odd_sample sample = ⌈(sample : ℚ) / 2⌉ := by
  unfold divide_shadow_odd_sample
  rw [tdiv_two_eq_ediv _ (by omega)]
  symm
  rw [Int.ceil_eq_iff]
  have h1 : (((sample + 1) / 2 : Int) : ℚ) * 2 ≤ (sample : ℚ) + 1 := by
    have : (sample + 1) / 2 * 2 ≤ sample + 1 := Int.ediv_mul_le _ (by decide)
    exact_mod_cast this
  have h2 : (sample : ℚ) ≤ (((sample + 1) / 2 : Int) : ℚ) * 2 := by
    have : sample ≤ (sample + 1) / 2 * 2 := by omega
    exact_mod_cast this
  constructor <;> linarith

theorem divide_shadow_even_sample_eq_floor (sample : Int) (h : 0 ≤ sample) :
    divide_shadow_even_sample sample = ⌊(sample : ℚ) / 2⌋ := by
  unfold divide_shadow_even_sample
  rw [tdiv_two_eq_ediv _ h]
  symm
  rw [Int.floor_eq_iff]
  have h1 : ((sample / 2 : Int) : ℚ) * 2 ≤ (sample : ℚ) := by
    have : sample / 2 * 2 ≤ sample := Int.ediv_mul_le _ (by decide)
    exact_mod_cast this
  have h2 : (sample : ℚ) < ((sample / 2 : Int) : ℚ) * 2 + 2 := by
    have : sample < sample / 2 * 2 + 2 := by omega
    exact_mod_cast this
  constructor <;> linarith

/-! ## Branch selection of `kernel_filter_get_feature` -/

theorem feature_case_eq (m : Int) (f : Bool) :
    feature_case m f =
      if 20 ≤ m ∧ m ≤ 22 ∧ f = true then FeatureCase.cross
      else if 26 ≤ m then FeatureCase.high else FeatureCase.default := by
  unfold feature_case
  by_cases h1 : 20 ≤ m <;> by_cases h2 : m ≤ 22 <;> cases f <;> simp [h1, h2]

theorem feature_case_cross_iff (m : Int) (f : Bool) :
    feature_case m f = FeatureCase.cross ↔ (20 ≤ m ∧ m ≤ 22 ∧ f = true) := by
  rw [feature_case_eq]; split_ifs <;> simp_all

theorem feature_case_high_iff (m : Int) (f : Bool) :
    feature_case m f = FeatureCase.high ↔ 26 ≤ m := by
  rw [feature_case_eq]; split_ifs with h1 h2
  · simp only [reduceCtorEq, false_iff]; omega
  · simp [h2]
  · simp [h2]

theorem feature_case_default_iff (m : Int) (f : Bool) :
    feature_case m f = FeatureCase.default ↔
      (¬ (20 ≤ m ∧ m ≤ 22 ∧ f = true) ∧ ¬ 26 ≤ m) := by
  rw [feature_case_eq]; split_ifs <;> simp_all

/-! ## Claims on `kernel_filter_divide_shadow` -/

/-- C1, as amended: for every sample count, mosaic, pixel, rect and flag values,
`kernel_filter_divide_shadow` stores
`bufferVariance[idx] = 0.5 * (unfilteredA[idx] - unfilteredB[idx])^2`, where both half
estimates are the values the same call has written (factor one half, not one quarter). -/
theorem divide_shadow_bufferVariance_half (sample : Int) (tiles : TilesInfo) (x y : Int)
    (out : ShadowBuffers) (rect : Int4) (buffer_pass_stride buffer_denoising_offset : Int)
    (use_gradients use_split_variance : Bool) :
    (kernel_filter_divide_shadow sample tiles x y out rect buffer_pass_stride
        buffer_denoising_offset use_gradients use_split_variance).2.bufferVariance (idx rect x y)
      = (1 / 2) *
        ((kernel_filter_divide_shadow sample tiles x y out rect buffer_pass_stride
            buffer_denoising_offset use_gradients use_split_variance).2.unfilteredA (idx rect x y)
          - (kernel_filter_divide_shadow sample tiles x y out rect buffer_pass_stride
            buffer_denoising_offset use_gradients use_split_variance).2.unfilteredB (idx rect x y))
          ^ 2 := by
  simp only [kernel_filter_divide_shadow, Function.update_same]
  ring

/-- C1, counterexample: with `sample = 4`, the pixel `(0,0)` of the rect `(0,0,4,4)` and a
record with half estimates `A = 1`, `B = 0`, the stored `bufferVariance[idx]` is `1/2`,
which is not `0.25 * (A - B)^2 = 1/4`. -/
theorem divide_shadow_bufferVariance_not_quarter :
    (2 : Int) ≤ 4 ∧
    (sample_rect.x ≤ 0 ∧ (0 : Int) < sample_rect.z ∧ sample_rect.y ≤ 0 ∧ (0 : Int) < sample_rect.w) ∧
    (kernel_filter_divide_shadow 4 sample_tiles 0 0 zero_buffers sample_rect 40 0
        false false).2.unfilteredA (idx sample_rect 0 0) = 1 ∧
    (kernel_filter_divide_shadow 4 sample_tiles 0 0 zero_buffers sample_rect 40 0
        false false).2.unfilteredB (idx sample_rect 0 0) = 0 ∧
    (kernel_filter_divide_shadow 4 sample_tiles 0 0 zero_buffers sample_rect 40 0
        false false).2.bufferVariance (idx sample_rect 0 0) = 1 / 2 ∧
    (kernel_filter_divide_shadow 4 sample_tiles 0 0 zero_buffers sample_rect 40 0
        false false).2.bufferVariance (idx sample_rect 0 0)
      ≠ (1 / 4) *
        ((kernel_filter_divide_shadow 4 sample_tiles 0 0 zero_buffers sample_rect 40 0
            false false).2.unfilteredA (idx sample_rect 0 0)
          - (kernel_filter_divide_shadow 4 sample_tiles 0 0 zero_buffers sample_rect 40 0
            false false).2.unfilteredB (idx sample_rect 0 0)) ^ 2 := by
  simp only [kernel_filter_divide_shadow, Function.update_same, divide_shadow_center_buffer,
    divide_shadow_tiles, tile, xtile, ytile, center_offset, sample_tiles, sample_rect,
    max_float, eps]
  norm_num

/-- C3, as amended: for every `sample ≥ 4`, neither `(n-1)` denominator of
`kernel_filter_divide_shadow` is zero: `odd_sample - 1 ≠ 0` and `even_sample - 1 ≠ 0`,
also after the conversion to float, so both half variances are proper quotients. -/
theorem divide_shadow_denominators_ne_zero (sample : Int) (h : 4 ≤ sample) :
    divide_shadow_odd_sample sample - 1 ≠ 0 ∧ divide_shadow_even_sample sample - 1 ≠ 0 ∧
    ((divide_shadow_odd_sample sample - 1 : Int) : ℚ) ≠ 0 ∧
    ((divide_shadow_even_sample sample - 1 : Int) : ℚ) ≠ 0 ∧
    (∀ (cb : Int → ℚ) (uA : ℚ),
      divide_shadow_varA sample cb uA false * ((divide_shadow_odd_sample sample - 1 : Int) : ℚ)
        = cb 16) ∧
    (∀ (cb : Int → ℚ) (uB : ℚ),
      divide_shadow_varB sample cb uB false * ((divide_shadow_even_sample sample - 1 : Int) : ℚ)
        = cb 19) := by
  have ho : divide_shadow_odd_sample sample - 1 ≠ 0 := by
    unfold divide_shadow_odd_sample
    rw [tdiv_two_eq_ediv _ (by omega)]
    omega
  have he : divide_shadow_even_sample sample - 1 ≠ 0 := by
    unfold divide_shadow_even_sample
    rw [tdiv_two_eq_ediv _ (by omega)]
    omega
  have hoq : ((divide_shadow_odd_sample sample - 1 : Int) : ℚ) ≠ 0 := by exact_mod_cast ho
  have heq : ((divide_shadow_even_sample sample - 1 : Int) : ℚ) ≠ 0 := by exact_mod_cast he
  refine ⟨ho, he, hoq, heq, ?_, ?_⟩
  · intro cb uA
    simp only [divide_shadow_varA, Bool.false_eq_true, if_false]
    exact div_mul_cancel₀ _ hoq
  · intro cb uB
    simp only [divide_shadow_varB, Bool.false_eq_true, if_false]
    exact div_mul_cancel₀ _ heq

/-- C3, witness of the amended statement at `sample = 4`. -/
theorem divide_shadow_denominators_ne_zero_at_four :
    (4 : Int) ≤ 4 ∧ divide_shadow_odd_sample 4 - 1 ≠ 0 ∧ divide_shadow_even_sample 4 - 1 ≠ 0 :=
  ⟨by decide, (divide_shadow_denominators_ne_zero 4 (by decide)).1,
    (divide_shadow_denominators_ne_zero 4 (by decide)).2.1⟩

/-- C3, counterexample: `sample = 2` satisfies `sample ≥ 2`, yet `odd_sample - 1` and
`even_sample - 1` are both zero; at `sample = 3` the denominator `even_sample - 1` is zero. -/
theorem divide_shadow_denominators_zero_at_two :
    (2 : Int) ≤ 2 ∧ divide_shadow_odd_sample 2 - 1 = 0 ∧ divide_shadow_even_sample 2 - 1 = 0 ∧
    (2 : Int) ≤ 3 ∧ divide_shadow_even_sample 3 - 1 = 0 := by
  decide

/-- C6: for every input, `kernel_filter_divide_shadow` stores
`sampleVariance[idx] = 0.5*(varA + varB)/sample`, where with split variance
`varA = (buf[16] - A^2*odd_count)/(odd_count-1)`, `varB = (buf[19] - B^2*even_count)/(even_count-1)`
and otherwise `varA = buf[16]/(odd_count-1)`, `varB = buf[19]/(even_count-1)`; `A`, `B` are
the half estimates written by the call, `odd_count = (sample+1)/2` is `ceil(sample/2)` and
`even_count = sample/2` is `floor(sample/2)` for every sample count `sample ≥ 0`. -/
theorem divide_shadow_sampleVariance (sample : Int) (tiles : TilesInfo) (x y : Int)
    (out : ShadowBuffers) (rect : Int4) (buffer_pass_stride buffer_denoising_offset : Int)
    (use_gradients : Bool) :
    (kernel_filter_divide_shadow sample tiles x y out rect buffer_pass_stride
        buffer_denoising_offset use_gradients true).2.sampleVariance (idx rect x y)
      = (1 / 2) *
        ((divide_shadow_center_buffer tiles x y buffer_pass_stride buffer_denoising_offset
              use_gradients 16
            - (kernel_filter_divide_shadow sample tiles x y out rect buffer_pass_stride
                buffer_denoising_offset use_gradients true).2.unfilteredA (idx rect x y) ^ 2
              * (divide_shadow_odd_sample sample : ℚ))
            / ((divide_shadow_odd_sample sample : ℚ) - 1)
          + (divide_shadow_center_buffer tiles x y buffer_pass_stride buffer_denoising_offset
              use_gradients 19
            - (kernel_filter_divide_shadow sample tiles x y out rect buffer_pass_stride
                buffer_denoising_offset use_gradients true).2.unfilteredB (idx rect x y) ^ 2
              * (divide_shadow_even_sample sample : ℚ))
            / ((divide_shadow_even_sample sample : ℚ) - 1))
        / (sample : ℚ) ∧
    (kernel_filter_divide_shadow sample tiles x y out rect buffer_pass_stride
        buffer_denoising_offset use_gradients false).2.sampleVariance (idx rect x y)
      = (1 / 2) *
        (divide_shadow_center_buffer tiles x y buffer_pass_stride buffer_denoising_offset
              use_gradients 16 / ((divide_shadow_odd_sample sample : ℚ) - 1)
          + divide_shadow_center_buffer tiles x y buffer_pass_stride buffer_denoising_offset
              use_gradients 19 / ((divide_shadow_even_sample sample : ℚ) - 1))
        / (sample : ℚ) ∧
    (0 ≤ sample → divide_shadow_odd_sample sample = ⌈(sample : ℚ) / 2⌉ ∧
      divide_shadow_even_sample sample = ⌊(sample : ℚ) / 2⌋) := by
  refine ⟨?_, ?_, fun h => ⟨divide_shadow_odd_sample_eq_ceil sample h,
    divide_shadow_even_sample_eq_floor sample h⟩⟩
  · simp only [kernel_filter_divide_shadow, Function.update_same, divide_shadow_varA,
      divide_shadow_varB, if_true, Int.cast_sub, Int.cast_one, pow_two]
  · simp only [kernel_filter_divide_shadow, Function.update_same, divide_shadow_varA,
      divide_shadow_varB, Bool.false_eq_true, if_false, Int.cast_sub, Int.cast_one]

/-- C6, witness: the sample-count part at `sample = 5` (`odd_count = 3`, `even_count = 2`). -/
theorem divide_shadow_sampleVariance_at_five :
    (0 : Int) ≤ 5 ∧ divide_shadow_odd_sample 5 = ⌈((5 : Int) : ℚ) / 2⌉ ∧
      divide_shadow_even_sample 5 = ⌊((5 : Int) : ℚ) / 2⌋ :=
  ⟨by decide, (divide_shadow_sampleVariance 5 sample_tiles 0 0 zero_buffers sample_rect 40 0
    false).2.2 (by decide)⟩

/-- C8: for every pixel record, `kernel_filter_divide_shadow` stores
`unfilteredA[idx] = buf[15] / max(buf[14], 1e-7)` and
`unfilteredB[idx] = buf[18] / max(buf[17], 1e-7)`, and for every `d` (zero and negative
included) the divisor `max(d, 1e-7)` is at least `1e-7`, strictly positive and not zero. -/
theorem divide_shadow_unfiltered (sample : Int) (tiles : TilesInfo) (x y : Int)
    (out : ShadowBuffers) (rect : Int4) (buffer_pass_stride buffer_denoising_offset : Int)
    (use_gradients use_split_variance : Bool) :
    (kernel_filter_divide_shadow sample tiles x y out rect buffer_pass_stride
        buffer_denoising_offset use_gradients use_split_variance).2.unfilteredA (idx rect x y)
      = divide_shadow_center_buffer tiles x y buffer_pass_stride buffer_denoising_offset
          use_gradients 15
        / max_float (divide_shadow_center_buffer tiles x y buffer_pass_stride
          buffer_denoising_offset use_gradients 14) (1 / 10000000) ∧
    (kernel_filter_divide_shadow sample tiles x y out rect buffer_pass_stride
        buffer_denoising_offset use_gradients use_split_variance).2.unfilteredB (idx rect x y)
      = divide_shadow_center_buffer tiles x y buffer_pass_stride buffer_denoising_offset
          use_gradients 18
        / max_float (divide_shadow_center_buffer tiles x y buffer_pass_stride
          buffer_denoising_offset use_gradients 17) (1 / 10000000) ∧
    (∀ d : ℚ, (1 / 10000000 : ℚ) ≤ max_float d (1 / 10000000) ∧
      0 < max_float d (1 / 10000000) ∧ max_float d (1 / 10000000) ≠ 0) := by
  refine ⟨?_, ?_, ?_⟩
  · simp only [kernel_filter_divide_shadow, Function.update_same, eps]
  · simp only [kernel_filter_divide_shadow, Function.update_same, eps]
  · intro d
    have h1 : (1 / 10000000 : ℚ) ≤ max_float d (1 / 10000000) := max_float_ge_right d _
    have h2 : (0 : ℚ) < max_float d (1 / 10000000) := lt_of_lt_of_le (by norm_num) h1
    exact ⟨h1, h2, ne_of_gt h2⟩

/-! ## The window loops of `kernel_filter_combine_halves` -/

theorem values_list_update_succ (values : Nat → ℚ) (n : Nat) (v : ℚ) :
    values_list (Function.update values n v) (n + 1) = values_list values n ++ [v] := by
  unfold values_list
  rw [List.range_succ, List.map_append]
  congr 1
  · apply List.map_congr_left
    intro k hk
    rw [List.mem_range] at hk
    exact Function.update_noteq (by omega) _ _
  · simp

theorem row_pixels_succ (lo_x : Int) (w : Nat) (py : Int) :
    row_pixels lo_x (w + 1) py = (lo_x, py) :: row_pixels (lo_x + 1) w py := by
  unfold row_pixels
  rw [List.range_succ_eq_map, List.map_cons, List.map_map]
  congr 1
  · simp
  · apply List.map_congr_left
    intro k _
    simp only [Function.comp, Nat.succ_eq_add_one, Nat.cast_add, Nat.cast_one]
    congr 1
    ring

theorem grid_pixels_succ (lo_x lo_y : Int) (w h : Nat) :
    grid_pixels lo_x lo_y w (h + 1)
      = row_pixels lo_x w lo_y ++ grid_pixels lo_x (lo_y + 1) w h := by
  unfold grid_pixels
  rw [List.range_succ_eq_map, List.flatMap_cons, List.flatMap_map]
  congr 1
  · simp
  · congr 1
    funext k
    simp only [Nat.succ_eq_add_one, Nat.cast_add, Nat.cast_one]
    congr 1
    ring

theorem row_pixels_length (lo_x : Int) (w : Nat) (py : Int) :
    (row_pixels lo_x w py).length = w := by
  simp [row_pixels]

theorem grid_pixels_length (lo_x lo_y : Int) (w h : Nat) :
    (grid_pixels lo_x lo_y w h).length = h * w := by
  induction h generalizing lo_y with
  | zero => simp [grid_pixels]
  | succ h ih =>
    rw [grid_pixels_succ, List.length_append, row_pixels_length, ih]
    ring

/-- The inner window loop appends one value per pixel of the row, in order, as long as
the 25 elements of `values` suffice. -/
theorem row_loop_spec (f : Int → ℚ) (py : Int) (w : Nat) (lo_x : Int) (s : Values)
    (h : s.numValues + w ≤ 25) :
    ∃ s1 : Values, for_loop (fun px (s0 : Values) => s0.push (f px)) w lo_x s = some s1 ∧
      s1.numValues = s.numValues + w ∧
      values_list s1.values s1.numValues
        = values_list s.values s.numValues ++ (row_pixels lo_x w py).map (fun p => f p.1) := by
  induction w generalizing lo_x s with
  | zero => exact ⟨s, rfl, rfl, by simp [row_pixels]⟩
  | succ w ih =>
    have hlt : s.numValues < 25 := by omega
    obtain ⟨s1, h1, h2, h3⟩ := ih (lo_x + 1)
      { values := Function.update s.values s.numValues (f lo_x), numValues := s.numValues + 1 }
      (by simp only; omega)
    refine ⟨s1, ?_, ?_, ?_⟩
    · simp only [for_loop, Values.push, hlt, if_true, Option.some_bind]
      exact h1
    · rw [h2]; simp only; omega
    · rw [h3, values_list_update_succ, row_pixels_succ]
      simp

/-- The two nested window loops append one value per pixel of the grid, in order, as
long as the 25 elements of `values` suffice. -/
theorem grid_loop_spec (g : Int → Int → ℚ) (w h : Nat) (lo_x lo_y : Int) (s : Values)
    (hcap : s.numValues + h * w ≤ 25) :
    ∃ s1 : Values,
      for_loop (fun py (s0 : Values) =>
        for_loop (fun px (s2 : Values) => s2.push (g px py)) w lo_x s0) h lo_y s = some s1 ∧
      s1.numValues = s.numValues + h * w ∧
      values_list s1.values s1.numValues
        = values_list s.values s.numValues
          ++ (grid_pixels lo_x lo_y w h).map (fun p => g p.1 p.2) := by
  induction h generalizing lo_y s with
  | zero => exact ⟨s, rfl, by simp, by simp [grid_pixels]⟩
  | succ h ih =>
    have hw : s.numValues + w ≤ 25 := by
      have : (h + 1) * w = h * w + w := by ring
      omega
    obtain ⟨s0, r1, r2, r3⟩ := row_loop_spec (fun px => g px lo_y) lo_y w lo_x s hw
    obtain ⟨s1, h1, h2, h3⟩ := ih (lo_y + 1) s0 (by
      have : (h + 1) * w = h * w + w := by ring
      omega)
    refine ⟨s1, ?_, ?_, ?_⟩
    · simp only [for_loop, r1, Option.some_bind]
      exact h1
    · rw [h2, r2]; ring
    · rw [h3, r3, grid_pixels_succ, List.map_append, List.append_assoc]
      congr 2
      unfold row_pixels
      simp [List.map_map, Function.comp]

/-! ## The insertion sort of `kernel_filter_combine_halves` -/

theorem values_list_succ (values : Nat → ℚ) (n : Nat) :
    values_list values (n + 1) = values_list values n ++ [values n] := by
  simp [values_list, List.range_succ]

theorem values_list_congr (f g : Nat → ℚ) (n : Nat) (h : ∀ j, j < n → f j = g j) :
    values_list f n = values_list g n := by
  unfold values_list
  apply List.map_congr_left
  intro k hk
  exact h k (List.mem_range.1 hk)

theorem values_list_length (values : Nat → ℚ) (n : Nat) :
    (values_list values n).length = n := by
  simp [values_list]

theorem values_list_getElem_some (values : Nat → ℚ) (n k : Nat) (h : k < n) :
    (values_list values n)[k]? = some (values k) := by
  simp [values_list, List.getElem?_map, List.getElem?_range h]

/-- The inner loop leaves every element above the insertion range unchanged. -/
theorem insert_value_above (v : ℚ) (k : Nat) (arr : Nat → ℚ) (j : Nat) (h : k < j) :
    insert_value v k arr j = arr j := by
  induction k generalizing arr with
  | zero =>
    simp only [insert_value]
    exact Function.update_noteq (by omega) _ _
  | succ k ih =>
    simp only [insert_value]
    split_ifs
    · rw [ih _ (by omega)]
      exact Function.update_noteq (by omega) _ _
    · exact Function.update_noteq (by omega) _ _

/-- The inner loop permutes `v` into the first `k` elements. -/
theorem insert_value_perm (v : ℚ) (k : Nat) (arr : Nat → ℚ) :
    (values_list (insert_value v k arr) (k + 1)).Perm (v :: values_list arr k) := by
  induction k generalizing arr with
  | zero =>
    simp [insert_value, values_list, List.range_succ]
  | succ k ih =>
    simp only [insert_value]
    split_ifs with hgt
    · rw [values_list_succ _ (k + 1), insert_value_above v k _ (k + 1) (by omega),
        Function.update_same, values_list_succ arr k]
      have h1 := ih (Function.update arr (k + 1) (arr k))
      rw [values_list_congr (Function.update arr (k + 1) (arr k)) arr k
        (fun j hj => Function.update_noteq (by omega) _ _)] at h1
      exact (h1.append_right [arr k])
    · rw [values_list_update_succ]
      exact List.perm_append_singleton v _

/-- The inner loop keeps a sorted range sorted. -/
theorem insert_value_sorted (v : ℚ) (k : Nat) (arr : Nat → ℚ)
    (hs : (values_list arr k).Sorted (fun p q => p ≤ q)) :
    (values_list (insert_value v k arr) (k + 1)).Sorted (fun p q => p ≤ q) := by
  induction k generalizing arr with
  | zero =>
    simp [insert_value, values_list, List.range_succ]
  | succ k ih =>
    rw [values_list_succ arr k] at hs
    obtain ⟨hs1, -, hs3⟩ := List.pairwise_append.1 hs
    simp only [insert_value]
    split_ifs with hgt
    · rw [values_list_succ _ (k + 1), insert_value_above v k _ (k + 1) (by omega),
        Function.update_same]
      have hagree : values_list (Function.update arr (k + 1) (arr k)) k = values_list arr k :=
        values_list_congr _ _ k (fun j hj => Function.update_noteq (by omega) _ _)
      refine List.pairwise_append.2 ⟨ih _ (by rw [hagree]; exact hs1), List.pairwise_singleton _ _, ?_⟩
      intro p hp q hq
      rw [List.mem_singleton] at hq
      subst hq
      have hp1 := (insert_value_perm v k (Function.update arr (k + 1) (arr k))).subset hp
      rw [hagree, List.mem_cons] at hp1
      rcases hp1 with rfl | hp1
      · exact le_of_lt hgt
      · exact hs3 p hp1 (arr k) (List.mem_singleton_self _)
    · rw [values_list_update_succ, values_list_succ arr k]
      refine List.pairwise_append.2 ⟨hs, List.pairwise_singleton _ _, ?_⟩
      intro p hp q hq
      rw [List.mem_singleton] at hq
      subst hq
      rw [List.mem_append, List.mem_singleton] at hp
      rcases hp with hp | rfl
      · exact le_trans (hs3 p hp (arr k) (List.mem_singleton_self _)) (not_lt.1 hgt)
      · exact not_lt.1 hgt

/-- One pass of the outer loop permutes the first `i + 1 + m` elements. -/
theorem insert_value_perm_range (i m : Nat) (arr : Nat → ℚ) :
    (values_list (insert_value (arr i) i arr) (i + 1 + m)).Perm (values_list arr (i + 1 + m)) := by
  induction m with
  | zero =>
    rw [Nat.add_zero, values_list_succ arr i]
    exact (insert_value_perm (arr i) i arr).trans (List.perm_append_singleton _ _).symm
  | succ m ih =>
    rw [← Nat.add_assoc, values_list_succ, values_list_succ arr,
      insert_value_above (arr i) i arr (i + 1 + m) (by omega)]
    exact ih.append_right _

/-- The outer loop, started with the first `i` elements sorted, sorts and permutes the
first `i + n` elements. -/
theorem sort_loop_spec (n i : Nat) (arr : Nat → ℚ)
    (hs : (values_list arr i).Sorted (fun p q => p ≤ q)) :
    (values_list (sort_loop n i arr) (i + n)).Sorted (fun p q => p ≤ q) ∧
    (values_list (sort_loop n i arr) (i + n)).Perm (values_list arr (i + n)) := by
  induction n generalizing i arr with
  | zero => exact ⟨hs, List.Perm.refl _⟩
  | succ n ih =>
    obtain ⟨h1, h2⟩ := ih (i + 1) (insert_value (arr i) i arr)
      (insert_value_sorted (arr i) i arr hs)
    have e : i + (n + 1) = i + 1 + n := by omega
    simp only [sort_loop]
    rw [e]
    exact ⟨h1, h2.trans (insert_value_perm_range i n arr)⟩

/-- The insertion sort of the kernel returns the gathered values in ascending order. -/
theorem insertion_sort_spec (s : Values) :
    (values_list (insertion_sort s) s.numValues).Sorted (fun p q => p ≤ q) ∧
    (values_list (insertion_sort s) s.numValues).Perm (values_list s.values s.numValues) := by
  unfold insertion_sort
  rcases Nat.eq_zero_or_pos s.numValues with h0 | hpos
  · rw [h0]
    simp [sort_loop, values_list]
  · have h := sort_loop_spec (s.numValues - 1) 1 s.values (by simp [values_list, List.range_succ])
    have e : 1 + (s.numValues - 1) = s.numValues := by omega
    rw [e] at h
    exact h

/-- The sorted array is the ascending ordering of the multiset of gathered values. -/
theorem insertion_sort_eq_sort (s : Values) :
    values_list (insertion_sort s) s.numValues
      = Multiset.sort (fun p q => p ≤ q) (values_list s.values s.numValues : Multiset ℚ) := by
  obtain ⟨h1, h2⟩ := insertion_sort_spec s
  refine List.eq_of_perm_of_sorted ?_ h1 (Multiset.sort_sorted _ _)
  rw [← Multiset.coe_eq_coe, Multiset.sort_eq]
  exact Multiset.coe_eq_coe.2 h2

/-! ## The gathered values are the values of the clipped window -/

theorem mem_row_pixels (lo_x : Int) (w : Nat) (py : Int) (p : Int × Int) :
    p ∈ row_pixels lo_x w py ↔ lo_x ≤ p.1 ∧ p.1 < lo_x + w ∧ p.2 = py := by
  unfold row_pixels
  rw [List.mem_map]
  constructor
  · rintro ⟨k, hk, rfl⟩
    rw [List.mem_range] at hk
    exact ⟨by simp only; omega, by simp only; omega, rfl⟩
  · rintro ⟨h1, h2, h3⟩
    refine ⟨(p.1 - lo_x).toNat, List.mem_range.2 (by omega), ?_⟩
    apply Prod.ext
    · simp only
      omega
    · exact h3.symm

theorem mem_grid_pixels (lo_x lo_y : Int) (w h : Nat) (p : Int × Int) :
    p ∈ grid_pixels lo_x lo_y w h ↔
      lo_x ≤ p.1 ∧ p.1 < lo_x + w ∧ lo_y ≤ p.2 ∧ p.2 < lo_y + h := by
  unfold grid_pixels
  rw [List.mem_flatMap]
  constructor
  · rintro ⟨k, hk, hp⟩
    rw [List.mem_range] at hk
    rw [mem_row_pixels] at hp
    omega
  · rintro ⟨h1, h2, h3, h4⟩
    refine ⟨(p.2 - lo_y).toNat, List.mem_range.2 (by omega), ?_⟩
    rw [mem_row_pixels]
    omega

theorem nodup_row_pixels (lo_x : Int) (w : Nat) (py : Int) : (row_pixels lo_x w py).Nodup := by
  unfold row_pixels
  refine List.Nodup.map ?_ (List.nodup_range w)
  intro k1 k2 hk
  simp only [Prod.mk.injEq, and_true] at hk
  omega

theorem nodup_grid_pixels (lo_x lo_y : Int) (w h : Nat) : (grid_pixels lo_x lo_y w h).Nodup := by
  unfold grid_pixels
  rw [List.nodup_flatMap]
  refine ⟨fun k _ => nodup_row_pixels _ _ _, ?_⟩
  refine (List.pairwise_lt_range h).imp ?_
  intro k1 k2 hlt
  simp only [Function.onFun]
  intro p hp1 hp2
  rw [mem_row_pixels] at hp1 hp2
  omega

/-- The loop bounds of the kernel enumerate exactly the clipped window of the spec. -/
theorem grid_pixels_eq_window (rect : Int4) (x y r : Int) :
    (grid_pixels (max_int (x - r) rect.x) (max_int (y - r) rect.y)
        (min_int (x + r + 1) rect.z - max_int (x - r) rect.x).toNat
        (min_int (y + r + 1) rect.w - max_int (y - r) rect.y).toNat : Multiset (Int × Int))
      = (window rect x y r).val := by
  rw [Multiset.Nodup.ext (Multiset.coe_nodup.2 (nodup_grid_pixels _ _ _ _)) (window rect x y r).nodup]
  intro p
  rw [Multiset.mem_coe, mem_grid_pixels, Finset.mem_val]
  unfold window max_int min_int
  simp only [Finset.mem_inter, Finset.mem_product, Finset.mem_Icc, Finset.mem_Ico]
  split_ifs <;> omega

theorem window_value_eq (a b : Int → ℚ) (rect : Int4) (px py : Int) :
    window_value a b rect px py
      = (1 / 4) * (a (idx rect px py) - b (idx rect px py)) ^ 2 := by
  unfold window_value
  ring

/-- The window loops of the kernel succeed for a pixel of the rect and `0 < r ≤ 2`, and
gather the multiset of window values of the spec, one value per window pixel. -/
theorem gather_values_spec (a b : Int → ℚ) (rect : Int4) (x y r : Int)
    (hx0 : rect.x ≤ x) (hx1 : x < rect.z) (hy0 : rect.y ≤ y) (hy1 : y < rect.w)
    (hr0 : 0 < r) (hr2 : r ≤ 2) :
    ∃ s : Values, gather_values a b rect x y r = some s ∧
      s.numValues = (window rect x y r).card ∧ 1 ≤ s.numValues ∧ s.numValues ≤ 25 ∧
      (values_list s.values s.numValues : Multiset ℚ) = window_values a b rect x y r := by
  have hw : (min_int (x + r + 1) rect.z - max_int (x - r) rect.x).toNat ≤ 5 ∧
      1 ≤ (min_int (x + r + 1) rect.z - max_int (x - r) rect.x).toNat := by
    unfold max_int min_int
    split_ifs <;> omega
  have hh : (min_int (y + r + 1) rect.w - max_int (y - r) rect.y).toNat ≤ 5 ∧
      1 ≤ (min_int (y + r + 1) rect.w - max_int (y - r) rect.y).toNat := by
    unfold max_int min_int
    split_ifs <;> omega
  have hcap : (min_int (y + r + 1) rect.w - max_int (y - r) rect.y).toNat
      * (min_int (x + r + 1) rect.z - max_int (x - r) rect.x).toNat ≤ 25 :=
    Nat.mul_le_mul hh.1 hw.1
  have hpos : 1 ≤ (min_int (y + r + 1) rect.w - max_int (y - r) rect.y).toNat
      * (min_int (x + r + 1) rect.z - max_int (x - r) rect.x).toNat :=
    Nat.mul_le_mul hh.2 hw.2
  obtain ⟨s, h1, h2, h3⟩ := grid_loop_spec (fun px py => window_value a b rect px py)
    (min_int (x + r + 1) rect.z - max_int (x - r) rect.x).toNat
    (min_int (y + r + 1) rect.w - max_int (y - r) rect.y).toNat
    (max_int (x - r) rect.x) (max_int (y - r) rect.y)
    { values := fun _ => 0, numValues := 0 } (by simp only [Nat.zero_add]; exact hcap)
  simp only [Nat.zero_add] at h2
  have hcard : (window rect x y r).card
      = (min_int (y + r + 1) rect.w - max_int (y - r) rect.y).toNat
        * (min_int (x + r + 1) rect.z - max_int (x - r) rect.x).toNat := by
    rw [Finset.card_def, ← grid_pixels_eq_window, Multiset.coe_card, grid_pixels_length]
  refine ⟨s, h1, by rw [h2, hcard], by omega, by omega, ?_⟩
  rw [h3]
  simp only [values_list, List.range_zero, List.map_nil, List.nil_append]
  unfold window_values
  rw [← grid_pixels_eq_window, Multiset.map_coe]
  congr 1
  apply List.map_congr_left
  intro p _
  exact window_value_eq a b rect p.1 p.2

/-! ## Claims on `kernel_filter_combine_halves` -/

/-- C2: for every pixel `(x,y)` inside the rect and every radius `0 < r ≤ 2`, the call
returns, and the variance written at `idx(x,y)` is the element of 0-based rank
`floor(7*count/8)` of the ascending ordering of the multiset
`{ 0.25*(a[p]-b[p])^2 : p in ([x-r,x+r] x [y-r,y+r]) ∩ rect }`, where `count` is the number
of pixels of the clipped window and every window pixel contributes exactly one value. -/
theorem combine_halves_rank_statistic (x y : Int) (mean : Option (Int → ℚ)) (var : Int → ℚ)
    (a b : Int → ℚ) (rect : Int4) (r : Int)
    (hx0 : rect.x ≤ x) (hx1 : x < rect.z) (hy0 : rect.y ≤ y) (hy1 : y < rect.w)
    (hr0 : 0 < r) (hr2 : r ≤ 2) :
    ∃ (mean1 : Option (Int → ℚ)) (var1 : Int → ℚ),
      kernel_filter_combine_halves x y mean (some var) a b rect r = some (mean1, some var1) ∧
      (Multiset.sort (fun p q => p ≤ q) (window_values a b rect x y r))[
          7 * (window rect x y r).card / 8]? = some (var1 (idx rect x y)) ∧
      Multiset.card (window_values a b rect x y r) = (window rect x y r).card := by
  obtain ⟨s, hs, hn, hpos, -, hm⟩ := gather_values_spec a b rect x y r hx0 hx1 hy0 hy1 hr0 hr2
  have hlt : 7 * s.numValues / 8 < s.numValues := by omega
  refine ⟨mean.map (fun m => Function.update m (idx rect x y)
      ((1 / 2) * (a (idx rect x y) + b (idx rect x y)))),
    Function.update (Function.update var (idx rect x y) 0) (idx rect x y)
      (insertion_sort s (7 * s.numValues / 8)), ?_, ?_, ?_⟩
  · simp only [kernel_filter_combine_halves, if_neg (ne_of_gt hr0), hs, Option.some_bind, hlt,
      if_true]
  · rw [Function.update_same, ← hm, ← insertion_sort_eq_sort, ← hn]
    exact values_list_getElem_some _ _ _ hlt
  · simp [window_values]

/-- C2, witness: the pixel `(1,1)` of the rect `(0,0,4,4)` with `r = 1` (a full 3x3
window), `a[i] = i` and `b = 0`. -/
theorem combine_halves_rank_statistic_at_interior :
    (sample_rect.x ≤ 1 ∧ (1 : Int) < sample_rect.z ∧ sample_rect.y ≤ 1 ∧ (1 : Int) < sample_rect.w ∧
      (0 : Int) < 1 ∧ (1 : Int) ≤ 2) ∧
    ∃ (mean1 : Option (Int → ℚ)) (var1 : Int → ℚ),
      kernel_filter_combine_halves 1 1 none (some (fun _ => 0)) (fun i => (i : ℚ)) (fun _ => 0)
        sample_rect 1 = some (mean1, some var1) ∧
      (Multiset.sort (fun p q => p ≤ q)
          (window_values (fun i => (i : ℚ)) (fun _ => 0) sample_rect 1 1 1))[
          7 * (window sample_rect 1 1 1).card / 8]? = some (var1 (idx sample_rect 1 1)) ∧
      Multiset.card (window_values (fun i => (i : ℚ)) (fun _ => 0) sample_rect 1 1 1)
        = (window sample_rect 1 1 1).card :=
  ⟨by decide, combine_halves_rank_statistic 1 1 none (fun _ => 0) (fun i => (i : ℚ))
    (fun _ => 0) sample_rect 1 (by decide) (by decide) (by decide) (by decide) (by decide)
    (by decide)⟩

/-! ## Rect addressing -/

/-- With alignment 4, `align_up n 4` is the least multiple of 4 that is at least `n`. -/
theorem align_up_four (n : Int) :
    4 ∣ align_up n 4 ∧ n ≤ align_up n 4 ∧ align_up n 4 < n + 4 ∧
    ∀ m : Int, 4 ∣ m → n ≤ m → align_up n 4 ≤ m := by
  unfold align_up
  refine ⟨Dvd.intro_left _ rfl, by omega, by omega, ?_⟩
  intro m hm hn
  obtain ⟨k, rfl⟩ := hm
  omega

theorem buffer_w_ge (rect : Int4) : rect.z - rect.x ≤ buffer_w rect :=
  (align_up_four _).2.1

/-- Inside the rect the output index is in the bounds of an array of
`buffer_w * (rect.w - rect.y)` elements. -/
theorem idx_bounds (rect : Int4) (x y : Int) (hx0 : rect.x ≤ x) (hx1 : x < rect.z)
    (hy0 : rect.y ≤ y) (hy1 : y < rect.w) :
    0 ≤ idx rect x y ∧ idx rect x y < buffer_w rect * (rect.w - rect.y) := by
  have hw := buffer_w_ge rect
  unfold idx
  have h1 : 0 ≤ (y - rect.y) * buffer_w rect :=
    mul_nonneg (by omega) (by omega)
  have h2 : (y - rect.y + 1) * buffer_w rect ≤ (rect.w - rect.y) * buffer_w rect :=
    mul_le_mul_of_nonneg_right (by omega) (by omega)
  constructor
  · omega
  · have h3 : (y - rect.y + 1) * buffer_w rect = (y - rect.y) * buffer_w rect + buffer_w rect := by
      ring
    have h4 : buffer_w rect * (rect.w - rect.y) = (rect.w - rect.y) * buffer_w rect := by ring
    omega

/-- Two pixels of the rect with the same output index are the same pixel. -/
theorem idx_injective (rect : Int4) (x y x1 y1 : Int)
    (hx0 : rect.x ≤ x) (hx1 : x < rect.z) (hx2 : rect.x ≤ x1) (hx3 : x1 < rect.z)
    (h : idx rect x y = idx rect x1 y1) : x = x1 ∧ y = y1 := by
  have hw := buffer_w_ge rect
  unfold idx at h
  have hy : y = y1 := by
    rcases lt_trichotomy y y1 with hlt | heq | hgt
    · exfalso
      have h2 : (y - rect.y + 1) * buffer_w rect ≤ (y1 - rect.y) * buffer_w rect :=
        mul_le_mul_of_nonneg_right (by omega) (by omega)
      have h3 : (y - rect.y + 1) * buffer_w rect
          = (y - rect.y) * buffer_w rect + buffer_w rect := by ring
      omega
    · exact heq
    · exfalso
      have h2 : (y1 - rect.y + 1) * buffer_w rect ≤ (y - rect.y) * buffer_w rect :=
        mul_le_mul_of_nonneg_right (by omega) (by omega)
      have h3 : (y1 - rect.y + 1) * buffer_w rect
          = (y1 - rect.y) * buffer_w rect + buffer_w rect := by ring
      omega
  subst hy
  exact ⟨by omega, rfl⟩

/-- C11: for every rect with `x0 < x1` and `y0 < y1`, `padded_width = align_up(x1-x0, 4)` is
the least multiple of 4 that is at least `x1-x0`, the index
`idx(x,y) = (y-y0)*padded_width + (x-x0)` of the kernels satisfies
`0 ≤ idx(x,y) < padded_width*(y1-y0)` for every pixel of the rect, and `idx` is injective
on the pixels of the rect (a rect with `x0 ≥ x1` or `y0 ≥ y1` has no pixel, so the
statement needs no hypothesis on the rect). -/
theorem idx_in_bounds_and_injective (rect : Int4) :
    (4 ∣ buffer_w rect ∧ rect.z - rect.x ≤ buffer_w rect ∧
      ∀ m : Int, 4 ∣ m → rect.z - rect.x ≤ m → buffer_w rect ≤ m) ∧
    (∀ x y : Int, idx rect x y = (y - rect.y) * buffer_w rect + (x - rect.x)) ∧
    (∀ x y : Int, rect.x ≤ x → x < rect.z → rect.y ≤ y → y < rect.w →
      0 ≤ idx rect x y ∧ idx rect x y < buffer_w rect * (rect.w - rect.y)) ∧
    (∀ x y x1 y1 : Int, rect.x ≤ x → x < rect.z → rect.y ≤ y → y < rect.w →
      rect.x ≤ x1 → x1 < rect.z → rect.y ≤ y1 → y1 < rect.w →
      idx rect x y = idx rect x1 y1 → x = x1 ∧ y = y1) := by
  refine ⟨⟨(align_up_four _).1, (align_up_four _).2.1, (align_up_four _).2.2.2⟩,
    fun _ _ => rfl, ?_, ?_⟩
  · intro x y h1 h2 h3 h4
    exact idx_bounds rect x y h1 h2 h3 h4
  · intro x y x1 y1 h1 h2 _ _ h5 h6 _ _ h
    exact idx_injective rect x y x1 y1 h1 h2 h5 h6 h

/-- C11, witness: the rect `(0,0,4,4)` with the pixels `(3,1)` and `(0,2)`. -/
theorem idx_in_bounds_and_injective_at_sample :
    (sample_rect.x < sample_rect.z ∧ sample_rect.y < sample_rect.w) ∧
    (sample_rect.x ≤ 3 ∧ (3 : Int) < sample_rect.z ∧ sample_rect.y ≤ 1 ∧ (1 : Int) < sample_rect.w) ∧
    (0 ≤ idx sample_rect 3 1 ∧
      idx sample_rect 3 1 < buffer_w sample_rect * (sample_rect.w - sample_rect.y)) :=
  ⟨by decide, by decide, (idx_in_bounds_and_injective sample_rect).2.2.1 3 1
    (by decide) (by decide) (by decide) (by decide)⟩

/-! ## Bounds of the window loops -/

/-- The loop bounds of the window: for a pixel of the rect and `r ≥ 0` the row and column
ranges are not empty, hold at most `2r+1` values and stay inside the rect. -/
theorem window_range (lo hi c r : Int) (h0 : lo ≤ c) (h1 : c < hi) (hr : 0 ≤ r) :
    1 ≤ (min_int (c + r + 1) hi - max_int (c - r) lo).toNat ∧
    ((min_int (c + r + 1) hi - max_int (c - r) lo).toNat : Int) ≤ 2 * r + 1 ∧
    lo ≤ max_int (c - r) lo ∧
    max_int (c - r) lo + ((min_int (c + r + 1) hi - max_int (c - r) lo).toNat : Int) ≤ hi := by
  unfold max_int min_int
  split_ifs <;> omega

/-- Every pixel of the clipped window is a pixel of the rect within `r` of `(x, y)`. -/
theorem mem_window (rect : Int4) (x y r : Int) (p : Int × Int) :
    p ∈ window rect x y r ↔
      (x - r ≤ p.1 ∧ p.1 ≤ x + r ∧ y - r ≤ p.2 ∧ p.2 ≤ y + r) ∧
      (rect.x ≤ p.1 ∧ p.1 < rect.z ∧ rect.y ≤ p.2 ∧ p.2 < rect.w) := by
  unfold window
  simp only [Finset.mem_inter, Finset.mem_product, Finset.mem_Icc, Finset.mem_Ico]
  constructor
  · rintro ⟨⟨⟨h1, h2⟩, h3, h4⟩, ⟨h5, h6⟩, h7, h8⟩
    exact ⟨⟨h1, h2, h3, h4⟩, h5, h6, h7, h8⟩
  · rintro ⟨⟨h1, h2, h3, h4⟩, h5, h6, h7, h8⟩
    exact ⟨⟨⟨h1, h2⟩, h3, h4⟩, ⟨h5, h6⟩, h7, h8⟩

/-- The number of pixels of the clipped window is the product of the two loop counts. -/
theorem window_card (rect : Int4) (x y r : Int) :
    (window rect x y r).card
      = (min_int (y + r + 1) rect.w - max_int (y - r) rect.y).toNat
        * (min_int (x + r + 1) rect.z - max_int (x - r) rect.x).toNat := by
  rw [Finset.card_def, ← grid_pixels_eq_window, Multiset.coe_card, grid_pixels_length]

/-- The window loops with no bound on the radius: they succeed whenever the window holds
at most 25 pixels, and then gather one value per pixel of the clipped window. -/
theorem gather_values_of_card_le (a b : Int → ℚ) (rect : Int4) (x y r : Int)
    (hcap : (window rect x y r).card ≤ 25) :
    ∃ s : Values, gather_values a b rect x y r = some s ∧
      s.numValues = (window rect x y r).card ∧
      values_list s.values s.numValues
        = (grid_pixels (max_int (x - r) rect.x) (max_int (y - r) rect.y)
            (min_int (x + r + 1) rect.z - max_int (x - r) rect.x).toNat
            (min_int (y + r + 1) rect.w - max_int (y - r) rect.y).toNat).map
          (fun p => window_value a b rect p.1 p.2) := by
  rw [window_card] at hcap
  obtain ⟨s, h1, h2, h3⟩ := grid_loop_spec (fun px py => window_value a b rect px py)
    (min_int (x + r + 1) rect.z - max_int (x - r) rect.x).toNat
    (min_int (y + r + 1) rect.w - max_int (y - r) rect.y).toNat
    (max_int (x - r) rect.x) (max_int (y - r) rect.y)
    { values := fun _ => 0, numValues := 0 } (by simp only [Nat.zero_add]; exact hcap)
  simp only [Nat.zero_add] at h2
  refine ⟨s, h1, by rw [h2, window_card], ?_⟩
  rw [h3]
  simp [values_list]

/-- The values gathered by the window loops depend on `a` and `b` only at the indices of
the pixels of the clipped window. -/
theorem gather_values_congr (a b a1 b1 : Int → ℚ) (rect : Int4) (x y r : Int)
    (hcap : (window rect x y r).card ≤ 25)
    (hag : ∀ p : Int × Int, p ∈ window rect x y r →
      a1 (idx rect p.1 p.2) = a (idx rect p.1 p.2) ∧ b1 (idx rect p.1 p.2) = b (idx rect p.1 p.2)) :
    ∃ s s1 : Values, gather_values a b rect x y r = some s ∧
      gather_values a1 b1 rect x y r = some s1 ∧ s1.numValues = s.numValues ∧
      values_list s1.values s1.numValues = values_list s.values s.numValues := by
  obtain ⟨s, h1, h2, h3⟩ := gather_values_of_card_le a b rect x y r hcap
  obtain ⟨s1, g1, g2, g3⟩ := gather_values_of_card_le a1 b1 rect x y r hcap
  refine ⟨s, s1, h1, g1, by rw [g2, h2], ?_⟩
  rw [g3, h3]
  apply List.map_congr_left
  intro p hp
  have hp1 : p ∈ window rect x y r := by
    rw [← Finset.mem_val, ← grid_pixels_eq_window]
    exact Multiset.mem_coe.2 hp
  unfold window_value
  rw [(hag p hp1).1, (hag p hp1).2]

/-- The count of the clipped window of a pixel of the rect: between 1 and `(2r+1)^2`. -/
theorem window_card_bounds (rect : Int4) (x y r : Int)
    (hx0 : rect.x ≤ x) (hx1 : x < rect.z) (hy0 : rect.y ≤ y) (hy1 : y < rect.w)
    (hr : 0 ≤ r) :
    1 ≤ (window rect x y r).card ∧ ((window rect x y r).card : Int) ≤ (2 * r + 1) ^ 2 := by
  obtain ⟨w1, w2, -, -⟩ := window_range rect.x rect.z x r hx0 hx1 hr
  obtain ⟨h1, h2, -, -⟩ := window_range rect.y rect.w y r hy0 hy1 hr
  rw [window_card]
  constructor
  · exact Nat.mul_le_mul h1 w1
  · rw [Nat.cast_mul, pow_two]
    exact mul_le_mul h2 w2 (by omega) (by omega)

/-- The element read after the sort depends only on the initialised part of `values`. -/
theorem insertion_sort_congr (s s1 : Values) (hn : s1.numValues = s.numValues)
    (hv : values_list s1.values s1.numValues = values_list s.values s.numValues)
    (k : Nat) (hk : k < s.numValues) : insertion_sort s1 k = insertion_sort s k := by
  have e1 := insertion_sort_eq_sort s1
  have e2 := insertion_sort_eq_sort s
  rw [hv, ← e2, hn] at e1
  have g1 := values_list_getElem_some (insertion_sort s1) s.numValues k hk
  have g2 := values_list_getElem_some (insertion_sort s) s.numValues k hk
  rw [e1, g2] at g1
  exact (Option.some.inj g1).symm

/-- C12: for every pixel `(x,y)` of the rect and every radius `1 ≤ r ≤ 2`: every pixel the
window loop visits is a pixel of the rect, with `0 ≤ pidx < padded_width*(y1-y0)`, and the
call reads `a` and `b` only there (it returns the same for all half buffers that agree at
those indices); the loop gathers `count` values, `count` the size of the clipped window,
with `1 ≤ count ≤ (2r+1)^2 ≤ 25`, so no store to the 25 elements of `values` is out of
bounds; and `0 ≤ floor(7*count/8) ≤ count-1`. -/
theorem combine_halves_window_in_bounds (x y : Int) (mean : Option (Int → ℚ)) (var : Int → ℚ)
    (a b : Int → ℚ) (rect : Int4) (r : Int)
    (hx0 : rect.x ≤ x) (hx1 : x < rect.z) (hy0 : rect.y ≤ y) (hy1 : y < rect.w)
    (hr1 : 1 ≤ r) (hr2 : r ≤ 2) :
    (∀ p : Int × Int, p ∈ window rect x y r →
      (rect.x ≤ p.1 ∧ p.1 < rect.z ∧ rect.y ≤ p.2 ∧ p.2 < rect.w) ∧
      0 ≤ idx rect p.1 p.2 ∧ idx rect p.1 p.2 < buffer_w rect * (rect.w - rect.y)) ∧
    (∀ a1 b1 : Int → ℚ,
      (∀ p : Int × Int, p ∈ window rect x y r →
        a1 (idx rect p.1 p.2) = a (idx rect p.1 p.2) ∧
        b1 (idx rect p.1 p.2) = b (idx rect p.1 p.2)) →
      kernel_filter_combine_halves x y mean (some var) a1 b1 rect r
        = kernel_filter_combine_halves x y mean (some var) a b rect r) ∧
    (∃ s : Values, gather_values a b rect x y r = some s ∧
      s.numValues = (window rect x y r).card ∧
      1 ≤ s.numValues ∧ (s.numValues : Int) ≤ (2 * r + 1) ^ 2 ∧ (2 * r + 1) ^ 2 ≤ 25 ∧
      s.numValues ≤ 25 ∧
      0 ≤ 7 * s.numValues / 8 ∧ 7 * s.numValues / 8 ≤ s.numValues - 1 ∧
      7 * s.numValues / 8 < s.numValues) := by
  obtain ⟨c1, c2⟩ := window_card_bounds rect x y r hx0 hx1 hy0 hy1 (by omega)
  have hsq : (2 * r + 1) ^ 2 ≤ 25 := by
    have h5 : 2 * r + 1 ≤ 5 := by omega
    have h0 : 0 ≤ 2 * r + 1 := by omega
    calc (2 * r + 1) ^ 2 = (2 * r + 1) * (2 * r + 1) := pow_two _
      _ ≤ 5 * 5 := mul_le_mul h5 h5 h0 (by norm_num)
      _ = 25 := by norm_num
  have hcap : (window rect x y r).card ≤ 25 := by omega
  refine ⟨?_, ?_, ?_⟩
  · intro p hp
    obtain ⟨-, h1, h2, h3, h4⟩ := (mem_window rect x y r p).1 hp
    exact ⟨⟨h1, h2, h3, h4⟩, idx_bounds rect p.1 p.2 h1 h2 h3 h4⟩
  · intro a1 b1 hag
    obtain ⟨s, s1, g, g1, gn, gv⟩ := gather_values_congr a b a1 b1 rect x y r hcap hag
    have hn : s.numValues = (window rect x y r).card := by
      obtain ⟨s2, k1, k2, -⟩ := gather_values_of_card_le a b rect x y r hcap
      rw [g] at k1
      rw [Option.some.inj k1]
      exact k2
    have hlt : 7 * s.numValues / 8 < s.numValues := by omega
    have hlt1 : 7 * s1.numValues / 8 < s1.numValues := by omega
    have hc : (x, y) ∈ window rect x y r :=
      (mem_window rect x y r (x, y)).2 ⟨by simp only; omega, by simp only; omega⟩
    obtain ⟨ea, eb⟩ := hag (x, y) hc
    simp only at ea eb
    simp only [kernel_filter_combine_halves, if_neg (show r ≠ 0 by omega), g, g1,
      Option.some_bind, hlt, hlt1, if_true, ea, eb, gn,
      insertion_sort_congr s s1 gn gv _ hlt]
  · obtain ⟨s, k1, k2, -⟩ := gather_values_of_card_le a b rect x y r hcap
    refine ⟨s, k1, k2, by omega, by rw [k2]; exact c2, hsq, by omega, Nat.zero_le _,
      by omega, by omega⟩

/-- C12, witness: the corner pixel `(0,0)` of the rect `(0,0,4,4)` with `r = 2`: every
pixel of the clipped window is a pixel of the rect with an index inside the arrays. -/
theorem combine_halves_window_in_bounds_at_corner :
    (sample_rect.x ≤ 0 ∧ (0 : Int) < sample_rect.z ∧ sample_rect.y ≤ 0 ∧ (0 : Int) < sample_rect.w ∧
      (1 : Int) ≤ 2 ∧ (2 : Int) ≤ 2) ∧
    ∀ p : Int × Int, p ∈ window sample_rect 0 0 2 →
      (sample_rect.x ≤ p.1 ∧ p.1 < sample_rect.z ∧ sample_rect.y ≤ p.2 ∧ p.2 < sample_rect.w) ∧
      0 ≤ idx sample_rect p.1 p.2 ∧
      idx sample_rect p.1 p.2 < buffer_w sample_rect * (sample_rect.w - sample_rect.y) :=
  ⟨by decide, (combine_halves_window_in_bounds 0 0 none (fun _ => 0) (fun _ => 0) (fun _ => 0)
    sample_rect 2 (by decide) (by decide) (by decide) (by decide) (by decide) (by decide)).1⟩

/-! ## Tile addressing -/

/-- For a coordinate at or above `boundary[0]`, `largest_band` is the largest `b` in `0..3`
with `c ≥ boundary[b]`. -/
theorem largest_band_spec (boundary : Int → Int) (c : Int) (h0 : boundary 0 ≤ c) :
    0 ≤ largest_band boundary c ∧ largest_band boundary c ≤ 3 ∧
    boundary (largest_band boundary c) ≤ c ∧
    ∀ b : Int, 0 ≤ b → b ≤ 3 → boundary b ≤ c → b ≤ largest_band boundary c := by
  unfold largest_band
  split_ifs with h3 h2 h1
  · exact ⟨by omega, by omega, h3, fun b _ hb _ => hb⟩
  · refine ⟨by omega, by omega, h2, ?_⟩
    intro b hb0 hb3 hb
    by_contra hc
    have : b = 3 := by omega
    subst this
    exact h3 hb
  · refine ⟨by omega, by omega, h1, ?_⟩
    intro b hb0 hb3 hb
    by_contra hc
    have : b = 2 ∨ b = 3 := by omega
    rcases this with rfl | rfl
    · exact h2 hb
    · exact h3 hb
  · refine ⟨by omega, by omega, h0, ?_⟩
    intro b hb0 hb3 hb
    by_contra hc
    have : b = 1 ∨ b = 2 ∨ b = 3 := by omega
    rcases this with rfl | rfl | rfl
    · exact h1 hb
    · exact h2 hb
    · exact h3 hb

/-- On a monotonic boundary array the band computed by the kernels is the band of the spec
for every coordinate inside the mosaic. -/
theorem band_eq_spec_band (boundary : Int → Int) (c : Int)
    (h12 : boundary 1 ≤ boundary 2) (hc : c < boundary 3) :
    (if c < boundary 1 then 0 else (if c < boundary 2 then 1 else 2)) = spec_band boundary c := by
  unfold spec_band largest_band
  split_ifs <;> first | rfl | omega

theorem tile_range (tiles : TilesInfo) (x y : Int) :
    0 ≤ tile tiles x y ∧ tile tiles x y ≤ 8 := by
  unfold tile xtile ytile
  split_ifs <;> omega

/-- C13: for every mosaic with monotonic boundary arrays and every pixel with
`boundary_x[0] ≤ x < boundary_x[3]` and `boundary_y[0] ≤ y < boundary_y[3]`, the column and
row band of the kernels are `min(2, largest b with c ≥ boundary[b])`, the tile index is
`row_band*3 + col_band` and lies in `0..8`, the element offset of the record is
`(offsets[tile] + y*strides[tile] + x)*pass_stride`, and `kernel_filter_divide_shadow` and
`kernel_filter_get_feature` read slot `k` of the record at the same tile and the same
element `offset + denoising_offset + k`. -/
theorem tile_addressing (tiles : TilesInfo) (x y buffer_pass_stride buffer_denoising_offset : Int)
    (hmx : tiles.x 0 ≤ tiles.x 1 ∧ tiles.x 1 ≤ tiles.x 2 ∧ tiles.x 2 ≤ tiles.x 3)
    (hmy : tiles.y 0 ≤ tiles.y 1 ∧ tiles.y 1 ≤ tiles.y 2 ∧ tiles.y 2 ≤ tiles.y 3)
    (hx : tiles.x 0 ≤ x ∧ x < tiles.x 3) (hy : tiles.y 0 ≤ y ∧ y < tiles.y 3) :
    (xtile tiles x = spec_band tiles.x x ∧ ytile tiles y = spec_band tiles.y y) ∧
    (tiles.x (largest_band tiles.x x) ≤ x ∧
      ∀ b : Int, 0 ≤ b → b ≤ 3 → tiles.x b ≤ x → b ≤ largest_band tiles.x x) ∧
    (tiles.y (largest_band tiles.y y) ≤ y ∧
      ∀ b : Int, 0 ≤ b → b ≤ 3 → tiles.y b ≤ y → b ≤ largest_band tiles.y y) ∧
    (tile tiles x y = ytile tiles y * 3 + xtile tiles x ∧
      0 ≤ tile tiles x y ∧ tile tiles x y ≤ 8) ∧
    center_offset tiles x y buffer_pass_stride
      = (tiles.offsets (tile tiles x y) + y * tiles.strides (tile tiles x y) + x)
        * buffer_pass_stride ∧
    (∀ (use_gradients : Bool) (k : Int),
      divide_shadow_center_buffer tiles x y buffer_pass_stride buffer_denoising_offset
          use_gradients k
        = (divide_shadow_tiles tiles x y buffer_pass_stride use_gradients).buffers
            (tile tiles x y)
            (center_offset tiles x y buffer_pass_stride + buffer_denoising_offset + k)) ∧
    (∀ k : Int,
      get_feature_center_buffer tiles x y buffer_pass_stride buffer_denoising_offset k
        = tiles.buffers (tile tiles x y)
            (center_offset tiles x y buffer_pass_stride + buffer_denoising_offset + k)) ∧
    (∀ k : Int,
      divide_shadow_center_buffer tiles x y buffer_pass_stride buffer_denoising_offset false k
        = get_feature_center_buffer tiles x y buffer_pass_stride buffer_denoising_offset k) := by
  obtain ⟨lx1, lx2, lx3, lx4⟩ := largest_band_spec tiles.x x hx.1
  obtain ⟨ly1, ly2, ly3, ly4⟩ := largest_band_spec tiles.y y hy.1
  refine ⟨⟨band_eq_spec_band tiles.x x hmx.2.1 hx.2,
    band_eq_spec_band tiles.y y hmy.2.1 hy.2⟩, ⟨lx3, lx4⟩, ⟨ly3, ly4⟩,
    ⟨rfl, tile_range tiles x y⟩, rfl, fun _ _ => rfl, fun _ => rfl, ?_⟩
  intro k
  simp [divide_shadow_center_buffer, get_feature_center_buffer, divide_shadow_tiles]

/-- C13, witness: the pixel `(1,2)` of the sample mosaic (boundaries `-4, 0, 4, 8` on both
axes) lies in the centre tile 4. -/
theorem tile_addressing_at_sample :
    ((sample_tiles.x 0 ≤ sample_tiles.x 1 ∧ sample_tiles.x 1 ≤ sample_tiles.x 2 ∧
        sample_tiles.x 2 ≤ sample_tiles.x 3) ∧
      (sample_tiles.y 0 ≤ sample_tiles.y 1 ∧ sample_tiles.y 1 ≤ sample_tiles.y 2 ∧
        sample_tiles.y 2 ≤ sample_tiles.y 3) ∧
      (sample_tiles.x 0 ≤ 1 ∧ (1 : Int) < sample_tiles.x 3) ∧
      (sample_tiles.y 0 ≤ 2 ∧ (2 : Int) < sample_tiles.y 3)) ∧
    (xtile sample_tiles 1 = spec_band sample_tiles.x 1 ∧
      ytile sample_tiles 2 = spec_band sample_tiles.y 2) ∧
    tile sample_tiles 1 2 = 4 :=
  ⟨by decide, (tile_addressing sample_tiles 1 2 40 0 (by decide) (by decide) (by decide)
    (by decide)).1, by decide⟩

/-! ## Frame of the gradient zeroing -/

theorem zero_gradients_fields (tiles : TilesInfo) (t base : Int) :
    (zero_gradients tiles t base).offsets = tiles.offsets ∧
    (zero_gradients tiles t base).strides = tiles.strides ∧
    (zero_gradients tiles t base).x = tiles.x ∧ (zero_gradients tiles t base).y = tiles.y :=
  ⟨rfl, rfl, rfl, rfl⟩

/-- The zeroing stores 0 to the four elements `base .. base+3` of tile `t`. -/
theorem zero_gradients_slots (tiles : TilesInfo) (t base k : Int) (h0 : 0 ≤ k) (h3 : k ≤ 3) :
    (zero_gradients tiles t base).buffers t (base + k) = 0 := by
  have hk : k = 0 ∨ k = 1 ∨ k = 2 ∨ k = 3 := by omega
  simp only [zero_gradients, Function.update_same]
  rcases hk with rfl | rfl | rfl | rfl <;> simp [Function.update_apply]

/-- The zeroing changes no other element of any tile. -/
theorem zero_gradients_frame (tiles : TilesInfo) (t base t1 e : Int)
    (h : ¬ (t1 = t ∧ base ≤ e ∧ e ≤ base + 3)) :
    (zero_gradients tiles t base).buffers t1 e = tiles.buffers t1 e := by
  simp only [zero_gradients]
  by_cases ht : t1 = t
  · subst ht
    have he : ¬ (base ≤ e ∧ e ≤ base + 3) := fun hc => h ⟨rfl, hc⟩
    simp only [Function.update_same]
    rw [Function.update_noteq (by omega), Function.update_noteq (by omega),
      Function.update_noteq (by omega), Function.update_noteq (by omega)]
  · rw [Function.update_noteq ht]

theorem tiles_ext (s t : TilesInfo) (h1 : s.offsets = t.offsets) (h2 : s.strides = t.strides)
    (h3 : s.x = t.x) (h4 : s.y = t.y) (h5 : ∀ i e, s.buffers i e = t.buffers i e) : s = t := by
  cases s
  cases t
  simp only at h1 h2 h3 h4 h5
  subst h1 h2 h3 h4
  have : ∀ i, _ := fun i => funext (h5 i)
  rw [TilesInfo.mk.injEq]
  exact ⟨rfl, rfl, rfl, rfl, funext this⟩

/-- Zeroing the same four elements again changes nothing. -/
theorem zero_gradients_idem (tiles : TilesInfo) (t base : Int) :
    zero_gradients (zero_gradients tiles t base) t base = zero_gradients tiles t base := by
  refine tiles_ext _ _ rfl rfl rfl rfl ?_
  intro i e
  by_cases h : i = t ∧ base ≤ e ∧ e ≤ base + 3
  · obtain ⟨rfl, h1, h2⟩ := h
    have he : e = base + (e - base) := by omega
    rw [he, zero_gradients_slots _ _ _ _ (by omega) (by omega),
      zero_gradients_slots _ _ _ _ (by omega) (by omega)]
  · rw [zero_gradients_frame _ _ _ _ _ h]

theorem divide_shadow_tiles_eq (tiles : TilesInfo) (x y buffer_pass_stride : Int)
    (use_gradients : Bool) :
    divide_shadow_tiles tiles x y buffer_pass_stride use_gradients
      = if (use_gradients && tile tiles x y == 4) = true then
          zero_gradients tiles (tile tiles x y) (center_offset tiles x y buffer_pass_stride)
        else tiles := rfl

theorem divide_shadow_tiles_tile (tiles : TilesInfo) (x y buffer_pass_stride : Int)
    (use_gradients : Bool) (x1 y1 : Int) :
    tile (divide_shadow_tiles tiles x y buffer_pass_stride use_gradients) x1 y1 = tile tiles x1 y1 ∧
    center_offset (divide_shadow_tiles tiles x y buffer_pass_stride use_gradients) x1 y1
      buffer_pass_stride = center_offset tiles x1 y1 buffer_pass_stride := by
  unfold divide_shadow_tiles
  split_ifs <;> exact ⟨rfl, rfl⟩

/-- The zeroing step of `kernel_filter_divide_shadow` is idempotent. -/
theorem divide_shadow_tiles_idem (tiles : TilesInfo) (x y buffer_pass_stride : Int)
    (use_gradients : Bool) :
    divide_shadow_tiles (divide_shadow_tiles tiles x y buffer_pass_stride use_gradients) x y
        buffer_pass_stride use_gradients
      = divide_shadow_tiles tiles x y buffer_pass_stride use_gradients := by
  have ht := (divide_shadow_tiles_tile tiles x y buffer_pass_stride use_gradients x y).1
  have hc := (divide_shadow_tiles_tile tiles x y buffer_pass_stride use_gradients x y).2
  by_cases hcond : (use_gradients && tile tiles x y == 4) = true
  · have e1 : divide_shadow_tiles tiles x y buffer_pass_stride use_gradients
        = zero_gradients tiles (tile tiles x y) (center_offset tiles x y buffer_pass_stride) := by
      unfold divide_shadow_tiles
      rw [if_pos hcond]
    have e2 : divide_shadow_tiles (divide_shadow_tiles tiles x y buffer_pass_stride
          use_gradients) x y buffer_pass_stride use_gradients
        = zero_gradients (divide_shadow_tiles tiles x y buffer_pass_stride use_gradients)
            (tile tiles x y) (center_offset tiles x y buffer_pass_stride) := by
      rw [divide_shadow_tiles_eq (divide_shadow_tiles tiles x y buffer_pass_stride
        use_gradients), ht, hc, if_pos hcond]
    rw [e2, e1, zero_gradients_idem]
  · have e1 : divide_shadow_tiles tiles x y buffer_pass_stride use_gradients = tiles := by
      unfold divide_shadow_tiles
      rw [if_neg hcond]
    rw [e1, e1]

/-- With `pass_stride ≥ 4` the four zeroed elements `p*pass_stride + k`, `k ≤ 3`, lie in the
record of position `p` and in the record of no other position `q`. -/
theorem record_slots_own (p q ps k : Int) (hps : 4 ≤ ps) (h0 : 0 ≤ k) (h3 : k ≤ 3) :
    (p * ps ≤ p * ps + k ∧ p * ps + k < p * ps + ps) ∧
    (q ≠ p → ¬ (q * ps ≤ p * ps + k ∧ p * ps + k < q * ps + ps)) := by
  refine ⟨⟨by omega, by omega⟩, ?_⟩
  intro hq hc
  rcases lt_or_gt_of_ne hq with hlt | hgt
  · have h1 : (q + 1) * ps ≤ p * ps := mul_le_mul_of_nonneg_right (by omega) (by omega)
    have h2 : (q + 1) * ps = q * ps + ps := by ring
    omega
  · have h1 : (p + 1) * ps ≤ q * ps := mul_le_mul_of_nonneg_right (by omega) (by omega)
    have h2 : (p + 1) * ps = p * ps + ps := by ring
    omega

/-- C14: `kernel_filter_divide_shadow` leaves the tile buffers as they are unless
`use_gradients` is set and the pixel resolves to tile 4; in that case it stores 0 to
exactly the four elements `base .. base+3`, `base = (offsets[4] + y*strides[4] + x)*pass_stride`,
of tile 4 (inside the record of the pixel and of no other position when `pass_stride ≥ 4`)
and changes no other element of any tile and no descriptor; running the kernel again on
the resulting buffers gives the same buffers. `kernel_filter_get_feature` and
`kernel_filter_combine_halves` pass the tile buffers on unchanged. -/
theorem divide_shadow_frame (sample : Int) (tiles : TilesInfo) (x y : Int)
    (out : ShadowBuffers) (rect : Int4) (buffer_pass_stride buffer_denoising_offset : Int)
    (use_gradients use_split_variance : Bool) :
    (¬ (use_gradients = true ∧ tile tiles x y = 4) →
      (kernel_filter_divide_shadow sample tiles x y out rect buffer_pass_stride
        buffer_denoising_offset use_gradients use_split_variance).1 = tiles) ∧
    ((use_gradients = true ∧ tile tiles x y = 4) →
      ((kernel_filter_divide_shadow sample tiles x y out rect buffer_pass_stride
          buffer_denoising_offset use_gradients use_split_variance).1.offsets = tiles.offsets ∧
        (kernel_filter_divide_shadow sample tiles x y out rect buffer_pass_stride
          buffer_denoising_offset use_gradients use_split_variance).1.strides = tiles.strides ∧
        (kernel_filter_divide_shadow sample tiles x y out rect buffer_pass_stride
          buffer_denoising_offset use_gradients use_split_variance).1.x = tiles.x ∧
        (kernel_filter_divide_shadow sample tiles x y out rect buffer_pass_stride
          buffer_denoising_offset use_gradients use_split_variance).1.y = tiles.y) ∧
      (∀ k : Int, 0 ≤ k → k ≤ 3 →
        (kernel_filter_divide_shadow sample tiles x y out rect buffer_pass_stride
          buffer_denoising_offset use_gradients use_split_variance).1.buffers 4
          ((tiles.offsets 4 + y * tiles.strides 4 + x) * buffer_pass_stride + k) = 0) ∧
      (∀ t e : Int,
        ¬ (t = 4 ∧ (tiles.offsets 4 + y * tiles.strides 4 + x) * buffer_pass_stride ≤ e ∧
          e ≤ (tiles.offsets 4 + y * tiles.strides 4 + x) * buffer_pass_stride + 3) →
        (kernel_filter_divide_shadow sample tiles x y out rect buffer_pass_stride
          buffer_denoising_offset use_gradients use_split_variance).1.buffers t e
          = tiles.buffers t e)) ∧
    (4 ≤ buffer_pass_stride → ∀ p q k : Int, 0 ≤ k → k ≤ 3 →
      (p * buffer_pass_stride ≤ p * buffer_pass_stride + k ∧
        p * buffer_pass_stride + k < p * buffer_pass_stride + buffer_pass_stride) ∧
      (q ≠ p → ¬ (q * buffer_pass_stride ≤ p * buffer_pass_stride + k ∧
        p * buffer_pass_stride + k < q * buffer_pass_stride + buffer_pass_stride))) ∧
    (∀ out1 : ShadowBuffers,
      (kernel_filter_divide_shadow sample
        (kernel_filter_divide_shadow sample tiles x y out rect buffer_pass_stride
          buffer_denoising_offset use_gradients use_split_variance).1
        x y out1 rect buffer_pass_stride buffer_denoising_offset use_gradients
        use_split_variance).1
      = (kernel_filter_divide_shadow sample tiles x y out rect buffer_pass_stride
          buffer_denoising_offset use_gradients use_split_variance).1) ∧
    (∀ (m : FeatureMemory) (m_offset v_offset : Int) (use_cross_denoising : Bool),
      (get_feature_memory sample m m_offset v_offset x y rect buffer_pass_stride
        buffer_denoising_offset use_cross_denoising use_split_variance).tiles = m.tiles) ∧
    (∀ (m m1 : CombineMemory) (r : Int),
      combine_halves_memory m x y rect r = some m1 → m1.tiles = m.tiles) := by
  have hk : (kernel_filter_divide_shadow sample tiles x y out rect buffer_pass_stride
      buffer_denoising_offset use_gradients use_split_variance).1
      = divide_shadow_tiles tiles x y buffer_pass_stride use_gradients := rfl
  rw [hk]
  refine ⟨?_, ?_, ?_, ?_, fun _ _ _ _ => rfl, ?_⟩
  · intro h
    rw [divide_shadow_tiles_eq, if_neg]
    intro hc
    rw [Bool.and_eq_true, beq_iff_eq] at hc
    exact h hc
  · rintro ⟨hg, ht⟩
    have e : divide_shadow_tiles tiles x y buffer_pass_stride use_gradients
        = zero_gradients tiles 4 ((tiles.offsets 4 + y * tiles.strides 4 + x)
            * buffer_pass_stride) := by
      rw [divide_shadow_tiles_eq, if_pos (by rw [Bool.and_eq_true, beq_iff_eq]; exact ⟨hg, ht⟩)]
      unfold center_offset
      rw [ht]
    rw [e]
    exact ⟨zero_gradients_fields _ _ _, fun k h0 h3 => zero_gradients_slots _ _ _ k h0 h3,
      fun t e1 h => zero_gradients_frame _ _ _ t e1 h⟩
  · intro hps p q k h0 h3
    exact record_slots_own p q buffer_pass_stride k hps h0 h3
  · intro out1
    exact divide_shadow_tiles_idem tiles x y buffer_pass_stride use_gradients
  · intro m m1 r h
    unfold combine_halves_memory at h
    rcases hres : kernel_filter_combine_halves x y m.mean m.variance m.a m.b rect r with _ | p
    · rw [hres] at h
      exact absurd h (by simp)
    · rw [hres] at h
      simp only [Option.map_some', Option.some.injEq] at h
      rw [← h]

/-- C14, witness: on the mosaic filled with ones, the kernel called with `use_gradients`
for the pixel `(0,0)` of the centre tile stores 0 to slot 0 of the record, which held 1,
and leaves slot 4 as it is. -/
theorem divide_shadow_frame_at_ones :
    (true = true ∧ tile ones_tiles 0 0 = 4) ∧
    ones_tiles.buffers 4 0 = 1 ∧
    (kernel_filter_divide_shadow 4 ones_tiles 0 0 zero_buffers sample_rect 40 0
      true false).1.buffers 4 ((ones_tiles.offsets 4 + 0 * ones_tiles.strides 4 + 0) * 40 + 0)
      = 0 ∧
    (kernel_filter_divide_shadow 4 ones_tiles 0 0 zero_buffers sample_rect 40 0
      true false).1.buffers 4 4 = ones_tiles.buffers 4 4 :=
  ⟨by decide, rfl,
    ((divide_shadow_frame 4 ones_tiles 0 0 zero_buffers sample_rect 40 0 true false).2.1
      (by decide)).2.1 0 (by decide) (by decide),
    ((divide_shadow_frame 4 ones_tiles 0 0 zero_buffers sample_rect 40 0 true false).2.1
      (by decide)).2.2 4 4 (by decide)⟩

/-! ## Further claims on the three kernels -/

/-- C15: for `r = 0` and a requested variance output, `kernel_filter_combine_halves`
returns and writes `variance[idx] = 0.25*(a[idx] - b[idx])^2`, leaving the other elements
of `variance` as they are; when the two half buffers are the same array the value written
is 0, at every pixel. -/
theorem combine_halves_pointwise (x y : Int) (mean : Option (Int → ℚ)) (var : Int → ℚ)
    (a b : Int → ℚ) (rect : Int4) :
    (∃ (mean1 : Option (Int → ℚ)) (var1 : Int → ℚ),
      kernel_filter_combine_halves x y mean (some var) a b rect 0 = some (mean1, some var1) ∧
      var1 (idx rect x y) = (1 / 4) * (a (idx rect x y) - b (idx rect x y)) ^ 2 ∧
      ∀ j : Int, j ≠ idx rect x y → var1 j = var j) ∧
    (∃ (mean1 : Option (Int → ℚ)) (var1 : Int → ℚ),
      kernel_filter_combine_halves x y mean (some var) a a rect 0 = some (mean1, some var1) ∧
      var1 (idx rect x y) = 0) := by
  constructor
  · refine ⟨_, _, by simp only [kernel_filter_combine_halves, if_true]; rfl, ?_, ?_⟩
    · rw [Function.update_same]
      ring
    · intro j hj
      exact Function.update_noteq hj _ _
  · refine ⟨_, _, by simp only [kernel_filter_combine_halves, if_true]; rfl, ?_⟩
    rw [Function.update_same]
    ring

/-- C15, witness: the pixel `(1,1)` of the rect `(0,0,4,4)` with `r = 0` and the same
array `a[i] = i` for both halves: the variance written is 0. -/
theorem combine_halves_pointwise_at_identical :
    ∃ (mean1 : Option (Int → ℚ)) (var1 : Int → ℚ),
      kernel_filter_combine_halves 1 1 none (some (fun _ => 1)) (fun i => (i : ℚ))
        (fun i => (i : ℚ)) sample_rect 0 = some (mean1, some var1) ∧
      var1 (idx sample_rect 1 1) = 0 :=
  (combine_halves_pointwise 1 1 none (fun _ => 1) (fun i => (i : ℚ)) (fun i => (i : ℚ))
    sample_rect).2

/-- C16: for every input, the tile buffers and the arrays `unfilteredA`, `unfilteredB` and
`bufferVariance` after `kernel_filter_divide_shadow` are the same for
`use_split_variance = true` and `use_split_variance = false`; `sampleVariance` and
`sampleVarianceV` can differ only at `idx`. -/
theorem divide_shadow_policy_independent (sample : Int) (tiles : TilesInfo) (x y : Int)
    (out : ShadowBuffers) (rect : Int4) (buffer_pass_stride buffer_denoising_offset : Int)
    (use_gradients : Bool) :
    (kernel_filter_divide_shadow sample tiles x y out rect buffer_pass_stride
        buffer_denoising_offset use_gradients true).1
      = (kernel_filter_divide_shadow sample tiles x y out rect buffer_pass_stride
        buffer_denoising_offset use_gradients false).1 ∧
    (kernel_filter_divide_shadow sample tiles x y out rect buffer_pass_stride
        buffer_denoising_offset use_gradients true).2.unfilteredA
      = (kernel_filter_divide_shadow sample tiles x y out rect buffer_pass_stride
        buffer_denoising_offset use_gradients false).2.unfilteredA ∧
    (kernel_filter_divide_shadow sample tiles x y out rect buffer_pass_stride
        buffer_denoising_offset use_gradients true).2.unfilteredB
      = (kernel_filter_divide_shadow sample tiles x y out rect buffer_pass_stride
        buffer_denoising_offset use_gradients false).2.unfilteredB ∧
    (kernel_filter_divide_shadow sample tiles x y out rect buffer_pass_stride
        buffer_denoising_offset use_gradients true).2.bufferVariance
      = (kernel_filter_divide_shadow sample tiles x y out rect buffer_pass_stride
        buffer_denoising_offset use_gradients false).2.bufferVariance ∧
    (∀ j : Int, j ≠ idx rect x y →
      (kernel_filter_divide_shadow sample tiles x y out rect buffer_pass_stride
          buffer_denoising_offset use_gradients true).2.sampleVariance j
        = (kernel_filter_divide_shadow sample tiles x y out rect buffer_pass_stride
          buffer_denoising_offset use_gradients false).2.sampleVariance j ∧
      (kernel_filter_divide_shadow sample tiles x y out rect buffer_pass_stride
          buffer_denoising_offset use_gradients true).2.sampleVarianceV j
        = (kernel_filter_divide_shadow sample tiles x y out rect buffer_pass_stride
          buffer_denoising_offset use_gradients false).2.sampleVarianceV j) := by
  refine ⟨rfl, rfl, rfl, rfl, ?_⟩
  intro j hj
  simp only [kernel_filter_divide_shadow]
  rw [Function.update_noteq hj, Function.update_noteq hj, Function.update_noteq hj,
    Function.update_noteq hj]
  exact ⟨rfl, rfl⟩

/-- C16, witness: the element of `sampleVariance` next to `idx` on the sample input. -/
theorem divide_shadow_policy_independent_at_sample :
    idx sample_rect 0 0 + 1 ≠ idx sample_rect 0 0 ∧
    (kernel_filter_divide_shadow 4 sample_tiles 0 0 zero_buffers sample_rect 40 0
        false true).2.sampleVariance (idx sample_rect 0 0 + 1)
      = (kernel_filter_divide_shadow 4 sample_tiles 0 0 zero_buffers sample_rect 40 0
        false false).2.sampleVariance (idx sample_rect 0 0 + 1) :=
  ⟨by decide, ((divide_shadow_policy_independent 4 sample_tiles 0 0 zero_buffers sample_rect
    40 0 false).2.2.2.2 (idx sample_rect 0 0 + 1) (by decide)).1⟩

/-- With `buffer_denoising_offset ≥ 0` every slot `k ≥ 4` of the record read after
`center_buffer += buffer_denoising_offset` is untouched by the gradient zeroing. -/
theorem divide_shadow_center_buffer_gradients (tiles : TilesInfo)
    (x y buffer_pass_stride buffer_denoising_offset : Int) (k : Int)
    (hoff : 0 ≤ buffer_denoising_offset) (hk : 4 ≤ k) :
    divide_shadow_center_buffer tiles x y buffer_pass_stride buffer_denoising_offset true k
      = divide_shadow_center_buffer tiles x y buffer_pass_stride buffer_denoising_offset
          false k := by
  unfold divide_shadow_center_buffer
  rw [divide_shadow_tiles_eq, divide_shadow_tiles_eq]
  simp only [Bool.true_and, Bool.false_and, Bool.false_eq_true, if_false]
  split_ifs with h
  · exact zero_gradients_frame _ _ _ _ _ (by omega)
  · rfl

/-- C19: for every `buffer_denoising_offset ≥ 0` the five output arrays of
`kernel_filter_divide_shadow` are the same for `use_gradients = true` and
`use_gradients = false`: the zeroed elements `base .. base+3` are disjoint from the
elements `base + denoising_offset + 14 .. base + denoising_offset + 19` that are read. -/
theorem divide_shadow_gradients_independent (sample : Int) (tiles : TilesInfo) (x y : Int)
    (out : ShadowBuffers) (rect : Int4) (buffer_pass_stride buffer_denoising_offset : Int)
    (use_split_variance : Bool) (hoff : 0 ≤ buffer_denoising_offset) :
    (kernel_filter_divide_shadow sample tiles x y out rect buffer_pass_stride
        buffer_denoising_offset true use_split_variance).2
      = (kernel_filter_divide_shadow sample tiles x y out rect buffer_pass_stride
        buffer_denoising_offset false use_split_variance).2 ∧
    (∀ j k : Int, 0 ≤ j → j ≤ 3 → 14 ≤ k → k ≤ 19 →
      center_offset tiles x y buffer_pass_stride + j
        ≠ center_offset tiles x y buffer_pass_stride + buffer_denoising_offset + k) := by
  have h := fun k hk => divide_shadow_center_buffer_gradients tiles x y buffer_pass_stride
    buffer_denoising_offset k hoff hk
  constructor
  · simp only [kernel_filter_divide_shadow, divide_shadow_varA, divide_shadow_varB,
      h 14 (by norm_num), h 15 (by norm_num), h 16 (by norm_num), h 17 (by norm_num),
      h 18 (by norm_num), h 19 (by norm_num)]
  · intro j k _ _ _ _
    omega

/-- C19, witness: on the mosaic filled with ones, with `buffer_denoising_offset = 0`. -/
theorem divide_shadow_gradients_independent_at_ones :
    (0 : Int) ≤ 0 ∧
    (kernel_filter_divide_shadow 4 ones_tiles 0 0 zero_buffers sample_rect 40 0 true false).2
      = (kernel_filter_divide_shadow 4 ones_tiles 0 0 zero_buffers sample_rect 40 0
        false false).2 :=
  ⟨by decide, (divide_shadow_gradients_independent 4 ones_tiles 0 0 zero_buffers sample_rect
    40 0 false (by decide)).1⟩

/-- The values of the grid of loop pixels are the window values of the spec. -/
theorem grid_values_eq_window_values (a b : Int → ℚ) (rect : Int4) (x y r : Int) :
    (((grid_pixels (max_int (x - r) rect.x) (max_int (y - r) rect.y)
        (min_int (x + r + 1) rect.z - max_int (x - r) rect.x).toNat
        (min_int (y + r + 1) rect.w - max_int (y - r) rect.y).toNat).map
      (fun p => window_value a b rect p.1 p.2) : List ℚ) : Multiset ℚ)
      = window_values a b rect x y r := by
  unfold window_values
  rw [← grid_pixels_eq_window, Multiset.map_coe]
  congr 1
  apply List.map_congr_left
  intro p _
  exact window_value_eq a b rect p.1 p.2

/-- The call with a requested variance and `r ≠ 0` on a window of 1 to 25 pixels: it
returns, and the element written is read at rank `7*count/8` of the sorted values. -/
theorem combine_halves_window_result (x y : Int) (mean : Option (Int → ℚ)) (var : Int → ℚ)
    (a b : Int → ℚ) (rect : Int4) (r : Int) (hr : r ≠ 0)
    (hpos : 1 ≤ (window rect x y r).card) (hcap : (window rect x y r).card ≤ 25) :
    ∃ s : Values, gather_values a b rect x y r = some s ∧
      s.numValues = (window rect x y r).card ∧
      (values_list s.values s.numValues : Multiset ℚ) = window_values a b rect x y r ∧
      kernel_filter_combine_halves x y mean (some var) a b rect r
        = some (mean.map (fun m => Function.update m (idx rect x y)
              ((1 / 2) * (a (idx rect x y) + b (idx rect x y)))),
            some (Function.update (Function.update var (idx rect x y) 0) (idx rect x y)
              (insertion_sort s (7 * s.numValues / 8)))) := by
  obtain ⟨s, h1, h2, h3⟩ := gather_values_of_card_le a b rect x y r hcap
  have hlt : 7 * s.numValues / 8 < s.numValues := by omega
  refine ⟨s, h1, h2, ?_, ?_⟩
  · rw [h3]
    exact grid_values_eq_window_values a b rect x y r
  · simp only [kernel_filter_combine_halves, if_neg hr, h1, Option.some_bind, hlt, if_true]

/-- C17: when a mean output is requested, `kernel_filter_combine_halves` writes
`mean[idx] = 0.5*(a[idx] + b[idx])` for every radius `r`: with no variance output the call
returns for every `r`, with a variance output every returning call has written that mean
and the call returns for `r = 0` and for `0 < r ≤ 2` at a pixel of the rect. Fed with the
`unfilteredA` and `unfilteredB` arrays written by `kernel_filter_divide_shadow`, the mean
at `idx` is the average of the two half estimates. With no mean (variance) output
requested the returned mean (variance) is absent, and `a`, `b` are passed on unchanged. -/
theorem combine_halves_mean (x y : Int) (m : Int → ℚ) (a b : Int → ℚ) (rect : Int4) :
    (∀ r : Int, kernel_filter_combine_halves x y (some m) none a b rect r
      = some (some (Function.update m (idx rect x y)
          ((1 / 2) * (a (idx rect x y) + b (idx rect x y)))), none)) ∧
    (∀ (r : Int) (var : Int → ℚ) (res : Option (Int → ℚ) × Option (Int → ℚ)),
      kernel_filter_combine_halves x y (some m) (some var) a b rect r = some res →
      res.1 = some (Function.update m (idx rect x y)
        ((1 / 2) * (a (idx rect x y) + b (idx rect x y))))) ∧
    (∀ var : Int → ℚ, ∃ var1 : Int → ℚ,
      kernel_filter_combine_halves x y (some m) (some var) a b rect 0
        = some (some (Function.update m (idx rect x y)
            ((1 / 2) * (a (idx rect x y) + b (idx rect x y)))), some var1)) ∧
    (∀ (r : Int) (var : Int → ℚ), rect.x ≤ x → x < rect.z → rect.y ≤ y → y < rect.w →
      0 < r → r ≤ 2 → ∃ var1 : Int → ℚ,
      kernel_filter_combine_halves x y (some m) (some var) a b rect r
        = some (some (Function.update m (idx rect x y)
            ((1 / 2) * (a (idx rect x y) + b (idx rect x y)))), some var1)) ∧
    (∀ (sample : Int) (tiles : TilesInfo) (out : ShadowBuffers)
      (buffer_pass_stride buffer_denoising_offset r : Int)
      (use_gradients use_split_variance : Bool),
      ∃ m1 : Int → ℚ,
        kernel_filter_combine_halves x y (some m) none
          (kernel_filter_divide_shadow sample tiles x y out rect buffer_pass_stride
            buffer_denoising_offset use_gradients use_split_variance).2.unfilteredA
          (kernel_filter_divide_shadow sample tiles x y out rect buffer_pass_stride
            buffer_denoising_offset use_gradients use_split_variance).2.unfilteredB
          rect r = some (some m1, none) ∧
        m1 (idx rect x y)
          = (1 / 2) *
            (divide_shadow_center_buffer tiles x y buffer_pass_stride buffer_denoising_offset
                use_gradients 15
              / max_float (divide_shadow_center_buffer tiles x y buffer_pass_stride
                buffer_denoising_offset use_gradients 14) eps
            + divide_shadow_center_buffer tiles x y buffer_pass_stride buffer_denoising_offset
                use_gradients 18
              / max_float (divide_shadow_center_buffer tiles x y buffer_pass_stride
                buffer_denoising_offset use_gradients 17) eps)) ∧
    (∀ (r : Int) (variance : Option (Int → ℚ)) (res : Option (Int → ℚ) × Option (Int → ℚ)),
      kernel_filter_combine_halves x y none variance a b rect r = some res → res.1 = none) ∧
    (∀ (r : Int) (mean : Option (Int → ℚ)),
      ∃ mean1 : Option (Int → ℚ),
        kernel_filter_combine_halves x y mean none a b rect r = some (mean1, none)) ∧
    (∀ (mem mem1 : CombineMemory) (r : Int),
      combine_halves_memory mem x y rect r = some mem1 → mem1.a = mem.a ∧ mem1.b = mem.b) := by
  refine ⟨fun _ => rfl, ?_, ?_, ?_, ?_, ?_, fun _ _ => ⟨_, rfl⟩, ?_⟩
  · intro r var res h
    simp only [kernel_filter_combine_halves, Option.map_some'] at h
    split_ifs at h with hr
    · rw [← Option.some.inj h]
    · rcases hg : gather_values a b rect x y r with _ | s
      · rw [hg] at h
        exact absurd h (by simp)
      · rw [hg, Option.some_bind] at h
        split_ifs at h
        rw [← Option.some.inj h]
  · intro var
    exact ⟨_, by simp only [kernel_filter_combine_halves, if_true]; rfl⟩
  · intro r var hx0 hx1 hy0 hy1 hr0 hr2
    obtain ⟨c1, c2⟩ := window_card_bounds rect x y r hx0 hx1 hy0 hy1 (by omega)
    have hcap : (window rect x y r).card ≤ 25 := by
      have h5 : 2 * r + 1 ≤ 5 := by omega
      have h0 : 0 ≤ 2 * r + 1 := by omega
      have : (2 * r + 1) ^ 2 ≤ 25 := by
        calc (2 * r + 1) ^ 2 = (2 * r + 1) * (2 * r + 1) := pow_two _
          _ ≤ 5 * 5 := mul_le_mul h5 h5 h0 (by norm_num)
          _ = 25 := by norm_num
      omega
    obtain ⟨s, -, -, -, hk⟩ := combine_halves_window_result x y (some m) var a b rect r
      (by omega) c1 hcap
    exact ⟨_, hk⟩
  · intro sample tiles out ps off r ug us
    refine ⟨_, rfl, ?_⟩
    simp only [kernel_filter_divide_shadow, Function.update_same]
  · intro r variance res h
    cases variance with
    | none =>
      simp only [kernel_filter_combine_halves, Option.map_none'] at h
      rw [← Option.some.inj h]
    | some var =>
      simp only [kernel_filter_combine_halves, Option.map_none'] at h
      split_ifs at h with hr
      · rw [← Option.some.inj h]
      · rcases hg : gather_values a b rect x y r with _ | s
        · rw [hg] at h
          exact absurd h (by simp)
        · rw [hg, Option.some_bind] at h
          split_ifs at h
          rw [← Option.some.inj h]
  · intro mem mem1 r h
    unfold combine_halves_memory at h
    rcases hres : kernel_filter_combine_halves x y mem.mean mem.variance mem.a mem.b rect r
      with _ | p
    · rw [hres] at h
      exact absurd h (by simp)
    · rw [hres] at h
      simp only [Option.map_some', Option.some.injEq] at h
      rw [← h]
      exact ⟨rfl, rfl⟩

/-- C17, witness: the interior pixel `(1,1)` of the rect `(0,0,4,4)` with `r = 2` and both
outputs requested. -/
theorem combine_halves_mean_at_interior :
    (sample_rect.x ≤ 1 ∧ (1 : Int) < sample_rect.z ∧ sample_rect.y ≤ 1 ∧ (1 : Int) < sample_rect.w ∧
      (0 : Int) < 2 ∧ (2 : Int) ≤ 2) ∧
    ∃ var1 : Int → ℚ,
      kernel_filter_combine_halves 1 1 (some (fun _ => 0)) (some (fun _ => 0))
        (fun i => (i : ℚ)) (fun _ => 1) sample_rect 2
        = some (some (Function.update (fun _ => 0) (idx sample_rect 1 1)
            ((1 / 2) * (((idx sample_rect 1 1 : Int) : ℚ) + 1))), some var1) :=
  ⟨by decide, (combine_halves_mean 1 1 (fun _ => 0) (fun i => (i : ℚ)) (fun _ => 1)
    sample_rect).2.2.2.1 2 (fun _ => 0) (by decide) (by decide) (by decide) (by decide)
    (by decide) (by decide)⟩

/-- In a sorted initial part of an array the last element is the largest. -/
theorem sorted_values_le_last (f : Nat → ℚ) (n : Nat)
    (hs : (values_list f (n + 1)).Sorted (fun p q => p ≤ q)) :
    f n ∈ values_list f (n + 1) ∧ ∀ v : ℚ, v ∈ values_list f (n + 1) → v ≤ f n := by
  rw [values_list_succ] at hs ⊢
  obtain ⟨-, -, h3⟩ := List.pairwise_append.1 hs
  refine ⟨by simp, ?_⟩
  intro v hv
  rw [List.mem_append, List.mem_singleton] at hv
  rcases hv with hv | rfl
  · exact h3 v hv (f n) (List.mem_singleton_self _)
  · exact le_refl _

/-- The number of loop iterations on one axis: `2r+1` when the window is not clipped, 2
when `r = 1` and the pixel is on the lower bound of the rect. -/
theorem window_range_count (lo hi c r : Int) (hr : 0 ≤ r) :
    (lo ≤ c - r → c + r < hi →
      ((min_int (c + r + 1) hi - max_int (c - r) lo).toNat : Int) = 2 * r + 1) ∧
    (lo = c → c + 1 < hi → (min_int (c + 1 + 1) hi - max_int (c - 1) lo).toNat = 2) := by
  unfold max_int min_int
  constructor
  · intro h0 h1
    split_ifs <;> omega
  · intro h0 h1
    split_ifs <;> omega

/-- C18: for every pixel of the rect and radius `r > 0` whose clipped window holds
`count ≤ 8` values, `floor(7*count/8) = count-1` and the variance written by
`kernel_filter_combine_halves` is the maximum of the window values `0.25*(a[p]-b[p])^2`
(`r = 1` at a rect corner gives `count = 4`, on a rect edge `count = 6`); for `count ≥ 9`
the rank is strictly below `count-1`: rank 7 of the 9 values of a full 3x3 window, rank 21
of the 25 values of a full 5x5 window. -/
theorem combine_halves_small_window_max (x y : Int) (mean : Option (Int → ℚ)) (var : Int → ℚ)
    (a b : Int → ℚ) (rect : Int4) (r : Int)
    (hx0 : rect.x ≤ x) (hx1 : x < rect.z) (hy0 : rect.y ≤ y) (hy1 : y < rect.w)
    (hr0 : 0 < r) :
    ((window rect x y r).card ≤ 8 →
      7 * (window rect x y r).card / 8 = (window rect x y r).card - 1 ∧
      ∃ (mean1 : Option (Int → ℚ)) (var1 : Int → ℚ),
        kernel_filter_combine_halves x y mean (some var) a b rect r = some (mean1, some var1) ∧
        var1 (idx rect x y) ∈ window_values a b rect x y r ∧
        ∀ v : ℚ, v ∈ window_values a b rect x y r → v ≤ var1 (idx rect x y)) ∧
    (9 ≤ (window rect x y r).card →
      7 * (window rect x y r).card / 8 < (window rect x y r).card - 1) ∧
    (rect.x = x → x + 1 < rect.z → rect.y = y → y + 1 < rect.w →
      (window rect x y 1).card = 4) ∧
    (rect.x = x → x + 1 < rect.z → rect.y < y → y + 1 < rect.w →
      (window rect x y 1).card = 6) ∧
    (rect.x < x → x + 1 < rect.z → rect.y < y → y + 1 < rect.w →
      (window rect x y 1).card = 9 ∧ 7 * (window rect x y 1).card / 8 = 7) ∧
    (rect.x + 1 < x → x + 2 < rect.z → rect.y + 1 < y → y + 2 < rect.w →
      (window rect x y 2).card = 25 ∧ 7 * (window rect x y 2).card / 8 = 21) := by
  refine ⟨?_, fun h => by omega, ?_, ?_, ?_, ?_⟩
  · intro hc
    obtain ⟨c1, -⟩ := window_card_bounds rect x y r hx0 hx1 hy0 hy1 (by omega)
    obtain ⟨s, hg, hn, hm, hk⟩ := combine_halves_window_result x y mean var a b rect r
      (by omega) c1 (by omega)
    have hrank : 7 * s.numValues / 8 = s.numValues - 1 := by omega
    obtain ⟨hsorted, hperm⟩ := insertion_sort_spec s
    have hsucc : s.numValues = (s.numValues - 1) + 1 := by omega
    rw [hsucc] at hsorted
    obtain ⟨m1, m2⟩ := sorted_values_le_last (insertion_sort s) (s.numValues - 1) hsorted
    rw [← hsucc] at m1 m2
    have hmem : ∀ v : ℚ, v ∈ window_values a b rect x y r ↔
        v ∈ values_list (insertion_sort s) s.numValues := by
      intro v
      rw [← hm, Multiset.mem_coe]
      exact (hperm.mem_iff).symm
    refine ⟨by omega, _, _, hk, ?_, ?_⟩
    · rw [Function.update_same, hrank]
      exact (hmem _).2 m1
    · intro v hv
      rw [Function.update_same, hrank]
      exact m2 v ((hmem v).1 hv)
  · intro h1 h2 h3 h4
    rw [window_card, (window_range_count rect.x rect.z x 1 (by norm_num)).2 h1 h2,
      (window_range_count rect.y rect.w y 1 (by norm_num)).2 h3 h4]
  · intro h1 h2 h3 h4
    have hy := (window_range_count rect.y rect.w y 1 (by norm_num)).1 (by omega) (by omega)
    rw [window_card, (window_range_count rect.x rect.z x 1 (by norm_num)).2 h1 h2]
    omega
  · intro h1 h2 h3 h4
    have hx := (window_range_count rect.x rect.z x 1 (by norm_num)).1 (by omega) (by omega)
    have hy := (window_range_count rect.y rect.w y 1 (by norm_num)).1 (by omega) (by omega)
    have e : (window rect x y 1).card = 9 := by
      rw [window_card]
      have hx3 : (min_int (x + 1 + 1) rect.z - max_int (x - 1) rect.x).toNat = 3 := by omega
      have hy3 : (min_int (y + 1 + 1) rect.w - max_int (y - 1) rect.y).toNat = 3 := by omega
      rw [hx3, hy3]
    rw [e]
    exact ⟨rfl, rfl⟩
  · intro h1 h2 h3 h4
    have hx := (window_range_count rect.x rect.z x 2 (by norm_num)).1 (by omega) (by omega)
    have hy := (window_range_count rect.y rect.w y 2 (by norm_num)).1 (by omega) (by omega)
    have e : (window rect x y 2).card = 25 := by
      rw [window_card]
      have hx5 : (min_int (x + 2 + 1) rect.z - max_int (x - 2) rect.x).toNat = 5 := by omega
      have hy5 : (min_int (y + 2 + 1) rect.w - max_int (y - 2) rect.y).toNat = 5 := by omega
      rw [hx5, hy5]
    rw [e]
    exact ⟨rfl, rfl⟩

/-- C18, witness: `r = 1` at the corner `(0,0)` of the rect `(0,0,4,4)` with `a[i] = i`,
`b = 0`: the window holds 4 values and the variance written is their maximum. -/
theorem combine_halves_small_window_max_at_corner :
    (sample_rect.x ≤ 0 ∧ (0 : Int) < sample_rect.z ∧ sample_rect.y ≤ 0 ∧ (0 : Int) < sample_rect.w ∧
      (0 : Int) < 1) ∧
    (window sample_rect 0 0 1).card = 4 ∧
    ∃ (mean1 : Option (Int → ℚ)) (var1 : Int → ℚ),
      kernel_filter_combine_halves 0 0 none (some (fun _ => 0)) (fun i => (i : ℚ)) (fun _ => 0)
        sample_rect 1 = some (mean1, some var1) ∧
      var1 (idx sample_rect 0 0) ∈ window_values (fun i => (i : ℚ)) (fun _ => 0) sample_rect 0 0 1 ∧
      ∀ v : ℚ, v ∈ window_values (fun i => (i : ℚ)) (fun _ => 0) sample_rect 0 0 1 →
        v ≤ var1 (idx sample_rect 0 0) :=
  have h4 : (window sample_rect 0 0 1).card = 4 :=
    (combine_halves_small_window_max 0 0 none (fun _ => 0) (fun i => (i : ℚ)) (fun _ => 0)
      sample_rect 1 (by decide) (by decide) (by decide) (by decide) (by decide)).2.2.1
      (by decide) (by decide) (by decide) (by decide)
  ⟨by decide, h4,
    ((combine_halves_small_window_max 0 0 none (fun _ => 0) (fun i => (i : ℚ)) (fun _ => 0)
      sample_rect 1 (by decide) (by decide) (by decide) (by decide) (by decide)).1
      (by rw [h4]; decide)).2⟩

/-! ## Signed 32-bit divisors -/

/-- A value in the range of a signed 32-bit `int` is not changed by the wrap. -/
theorem wrap_int32_of_range (n : Int) (h0 : -2147483648 ≤ n) (h1 : n ≤ 2147483647) :
    wrap_int32 n = n := by
  unfold wrap_int32
  omega

/-- For `0 ≤ a ≤ 46340` and `0 ≤ b ≤ 46340` the exact product is at most `46340^2`,
which is below `2^31`. -/
theorem mul_le_int32 (a b : Int) (ha0 : 0 ≤ a) (ha : a ≤ 46340) (hb0 : 0 ≤ b) (hb : b ≤ 46340) :
    0 ≤ a * b ∧ a * b ≤ 2147483647 := by
  have h1 : a * b ≤ 46340 * 46340 := mul_le_mul ha hb hb0 (by norm_num)
  have h2 : 0 ≤ a * b := mul_nonneg ha0 hb0
  constructor
  · exact h2
  · have : (46340 : Int) * 46340 = 2147395600 := by norm_num
    omega

/-- C20: for every `sample` with `2 ≤ sample ≤ 46340` the divisors formed in signed 32-bit
arithmetic, `sample*sample` in `kernel_filter_divide_shadow` and `sample*(sample-1)`,
`(sample/2)*(sample-1)` and `((sample+1)/2)*(sample-1)` in `kernel_filter_get_feature`, are
the exact products and strictly positive; at `sample = 46341` the exact `sample*sample`
is above `2^31 - 1` (as for every larger `sample`), so 46340 is the largest sample count
whose square does not overflow. -/
theorem divisors_int32 (sample : Int) (h2 : 2 ≤ sample) (hmax : sample ≤ 46340) :
    (divide_shadow_divisor32 sample = sample * sample ∧ 0 < divide_shadow_divisor32 sample) ∧
    (get_feature_default_divisor32 sample = sample * (sample - 1) ∧
      0 < get_feature_default_divisor32 sample) ∧
    (get_feature_cross_divisor32 sample = get_feature_odd_sample sample * (sample - 1) ∧
      get_feature_odd_sample sample = ⌊(sample : ℚ) / 2⌋ ∧
      0 < get_feature_cross_divisor32 sample) ∧
    (get_feature_high_divisor32 sample = get_feature_even_sample sample * (sample - 1) ∧
      get_feature_even_sample sample = ⌈(sample : ℚ) / 2⌉ ∧
      0 < get_feature_high_divisor32 sample) ∧
    ((2147483647 : Int) < 46341 * 46341 ∧ divide_shadow_divisor32 46341 ≠ 46341 * 46341) ∧
    (∀ s : Int, 46341 ≤ s → (2147483647 : Int) < s * s) := by
  have hs1 : wrap_int32 (sample - 1) = sample - 1 := wrap_int32_of_range _ (by omega) (by omega)
  have hs2 : wrap_int32 (sample + 1) = sample + 1 := wrap_int32_of_range _ (by omega) (by omega)
  have hodd : sample.tdiv 2 = sample / 2 := tdiv_two_eq_ediv sample (by omega)
  have heven : (sample + 1).tdiv 2 = (sample + 1) / 2 := tdiv_two_eq_ediv _ (by omega)
  have p1 := mul_le_int32 sample sample (by omega) hmax (by omega) hmax
  have p2 := mul_le_int32 sample (sample - 1) (by omega) hmax (by omega) (by omega)
  have p3 := mul_le_int32 (sample / 2) (sample - 1) (by omega) (by omega) (by omega) (by omega)
  have p4 := mul_le_int32 ((sample + 1) / 2) (sample - 1) (by omega) (by omega) (by omega)
    (by omega)
  have q1 : 0 < sample * sample := mul_pos (by omega) (by omega)
  have q2 : 0 < sample * (sample - 1) := mul_pos (by omega) (by omega)
  have q3 : 0 < sample / 2 * (sample - 1) := mul_pos (by omega) (by omega)
  have q4 : 0 < (sample + 1) / 2 * (sample - 1) := mul_pos (by omega) (by omega)
  refine ⟨?_, ?_, ?_, ?_, ?_, ?_⟩
  · unfold divide_shadow_divisor32
    rw [wrap_int32_of_range _ (by omega) p1.2]
    exact ⟨rfl, q1⟩
  · unfold get_feature_default_divisor32
    rw [hs1, wrap_int32_of_range _ (by omega) p2.2]
    exact ⟨rfl, q2⟩
  · unfold get_feature_cross_divisor32 get_feature_odd_sample
    rw [hs1, hodd, wrap_int32_of_range _ (by omega) p3.2]
    refine ⟨rfl, ?_, q3⟩
    rw [← hodd]
    exact divide_shadow_even_sample_eq_floor sample (by omega)
  · unfold get_feature_high_divisor32 get_feature_even_sample
    rw [hs1, hs2, heven, wrap_int32_of_range _ (by omega) p4.2]
    refine ⟨rfl, ?_, q4⟩
    rw [← heven]
    exact divide_shadow_odd_sample_eq_ceil sample (by omega)
  · constructor
    · norm_num
    · unfold divide_shadow_divisor32 wrap_int32
      norm_num
  · intro s hs
    have h : (46341 : Int) * 46341 ≤ s * s := mul_le_mul hs hs (by norm_num) (by omega)
    have : (46341 : Int) * 46341 = 2147488281 := by norm_num
    omega

/-- C20, witness: `sample = 46340`, the largest count of the range. -/
theorem divisors_int32_at_max :
    ((2 : Int) ≤ 46340 ∧ (46340 : Int) ≤ 46340) ∧
    divide_shadow_divisor32 46340 = 46340 * 46340 ∧ 0 < divide_shadow_divisor32 46340 :=
  ⟨by decide, (divisors_int32 46340 (by decide) (by decide)).1⟩

/-! ## The 32-bit divisors inside their exact range -/

/-- A product of two bounded non-negative ints is bounded by the product of the bounds. -/
theorem mul_le_of_bounds (a b A B : Int) (ha0 : 0 ≤ a) (ha : a ≤ A) (hb0 : 0 ≤ b) (hb : b ≤ B) :
    0 ≤ a * b ∧ a * b ≤ A * B :=
  ⟨mul_nonneg ha0 hb0, mul_le_mul ha hb hb0 (le_trans ha0 ha)⟩

/-- Up to `sample = 2^31 - 2` the sum `sample + 1` does not overflow and `even_sample` of
`kernel_filter_get_feature` is `ceil(sample/2)`. -/
theorem get_feature_even_sample_of_range (sample : Int) (h0 : 0 ≤ sample)
    (h1 : sample ≤ 2147483646) :
    get_feature_even_sample sample = (sample + 1) / 2 ∧
    get_feature_even_sample sample = ⌈(sample : ℚ) / 2⌉ := by
  have e : get_feature_even_sample sample = (sample + 1).tdiv 2 := by
    unfold get_feature_even_sample
    rw [wrap_int32_of_range _ (by omega) (by omega)]
  refine ⟨by rw [e]; exact tdiv_two_eq_ediv _ (by omega), ?_⟩
  rw [e]
  exact divide_shadow_odd_sample_eq_ceil sample h0

/-- The divisor `odd_sample - 1`, `even_sample - 1`, `sample`, `sample*sample` of
`kernel_filter_divide_shadow` for `4 ≤ sample ≤ 46340`: none is zero and the 32-bit
product is the exact square. -/
theorem divide_shadow_divisors_of_range (sample : Int) (h4 : 4 ≤ sample) (hmax : sample ≤ 46340) :
    divide_shadow_divisor32 sample = sample * sample ∧
    ((divide_shadow_odd_sample sample - 1 : Int) : ℚ) ≠ 0 ∧
    ((divide_shadow_even_sample sample - 1 : Int) : ℚ) ≠ 0 ∧
    (sample : ℚ) ≠ 0 ∧ ((divide_shadow_divisor32 sample : Int) : ℚ) ≠ 0 := by
  have p := mul_le_of_bounds sample sample 46340 46340 (by omega) hmax (by omega) hmax
  have q : 0 < sample * sample := mul_pos (by omega) (by omega)
  have e : divide_shadow_divisor32 sample = sample * sample := by
    unfold divide_shadow_divisor32
    exact wrap_int32_of_range _ (by omega) (by have := p.2; norm_num at this; omega)
  have ho : divide_shadow_odd_sample sample - 1 ≠ 0 := by
    unfold divide_shadow_odd_sample
    rw [tdiv_two_eq_ediv _ (by omega)]
    omega
  have he : divide_shadow_even_sample sample - 1 ≠ 0 := by
    unfold divide_shadow_even_sample
    rw [tdiv_two_eq_ediv _ (by omega)]
    omega
  refine ⟨e, by exact_mod_cast ho, by exact_mod_cast he, ?_, ?_⟩
  · have : sample ≠ 0 := by omega
    exact_mod_cast this
  · rw [e]
    have : sample * sample ≠ 0 := by omega
    exact_mod_cast this

/-- The divisor `sample * (sample-1)` of the default case for `2 ≤ sample ≤ 46341`: the
32-bit product is the exact one and positive. -/
theorem get_feature_default_divisor32_exact (sample : Int) (h2 : 2 ≤ sample)
    (hmax : sample ≤ 46341) :
    get_feature_default_divisor32 sample = sample * (sample - 1) ∧
    0 < sample * (sample - 1) := by
  have p := mul_le_of_bounds sample (sample - 1) 46341 46340 (by omega) hmax (by omega)
    (by omega)
  have q : 0 < sample * (sample - 1) := mul_pos (by omega) (by omega)
  refine ⟨?_, q⟩
  unfold get_feature_default_divisor32
  rw [wrap_int32_of_range (sample - 1) (by omega) (by omega)]
  exact wrap_int32_of_range _ (by omega) (by have := p.2; norm_num at this; omega)

/-- The divisor `odd_sample * (sample-1)` of the cross-denoising case for
`2 ≤ sample ≤ 65536`: the 32-bit product is the exact one and positive. -/
theorem get_feature_cross_divisor32_exact (sample : Int) (h2 : 2 ≤ sample)
    (hmax : sample ≤ 65536) :
    get_feature_cross_divisor32 sample = get_feature_odd_sample sample * (sample - 1) ∧
    0 < get_feature_odd_sample sample * (sample - 1) ∧
    get_feature_odd_sample sample = ⌊(sample : ℚ) / 2⌋ ∧ 0 < get_feature_odd_sample sample := by
  have hodd : sample.tdiv 2 = sample / 2 := tdiv_two_eq_ediv sample (by omega)
  have p := mul_le_of_bounds (sample / 2) (sample - 1) 32768 65535 (by omega) (by omega)
    (by omega) (by omega)
  have q : 0 < sample / 2 * (sample - 1) := mul_pos (by omega) (by omega)
  unfold get_feature_cross_divisor32 get_feature_odd_sample
  rw [wrap_int32_of_range (sample - 1) (by omega) (by omega), hodd]
  refine ⟨wrap_int32_of_range _ (by omega) (by have := p.2; norm_num at this; omega), q, ?_,
    by omega⟩
  rw [← hodd]
  exact divide_shadow_even_sample_eq_floor sample (by omega)

/-- The divisor `even_sample * (sample-1)` of the high-offset case for
`2 ≤ sample ≤ 65536`: the 32-bit product is the exact one and positive. -/
theorem get_feature_high_divisor32_exact (sample : Int) (h2 : 2 ≤ sample)
    (hmax : sample ≤ 65536) :
    get_feature_high_divisor32 sample = get_feature_even_sample sample * (sample - 1) ∧
    0 < get_feature_even_sample sample * (sample - 1) ∧
    get_feature_even_sample sample = ⌈(sample : ℚ) / 2⌉ ∧ 0 < get_feature_even_sample sample := by
  obtain ⟨e1, e2⟩ := get_feature_even_sample_of_range sample (by omega) (by omega)
  have p := mul_le_of_bounds ((sample + 1) / 2) (sample - 1) 32768 65535 (by omega) (by omega)
    (by omega) (by omega)
  have q : 0 < (sample + 1) / 2 * (sample - 1) := mul_pos (by omega) (by omega)
  have e : get_feature_high_divisor32 sample
      = wrap_int32 (get_feature_even_sample sample * wrap_int32 (sample - 1)) := rfl
  rw [e, wrap_int32_of_range (sample - 1) (by omega) (by omega), e1]
  refine ⟨wrap_int32_of_range _ (by omega) (by have := p.2; norm_num at this; omega), q, ?_,
    by omega⟩
  rw [← e1]
  exact e2

/-! ## The three branches of `kernel_filter_get_feature` -/

/-- The stores of the cross-denoising branch (lines 101-108). -/
theorem get_feature_cross_eq (sample : Int) (tiles : TilesInfo) (m_offset v_offset : Int)
    (x y : Int) (mean variance : Int → ℚ) (rect : Int4)
    (buffer_pass_stride buffer_denoising_offset : Int)
    (use_cross_denoising use_split_variance : Bool)
    (hc : feature_case m_offset use_cross_denoising = FeatureCase.cross) :
    (kernel_filter_get_feature sample tiles m_offset v_offset x y mean variance rect
        buffer_pass_stride buffer_denoising_offset use_cross_denoising
        use_split_variance).1 (idx rect x y)
      = (get_feature_center_buffer tiles x y buffer_pass_stride buffer_denoising_offset m_offset
          - get_feature_center_buffer tiles x y buffer_pass_stride buffer_denoising_offset
            (m_offset + 6))
        / (get_feature_odd_sample sample : ℚ) ∧
    (kernel_filter_get_feature sample tiles m_offset v_offset x y mean variance rect
        buffer_pass_stride buffer_denoising_offset use_cross_denoising
        use_split_variance).2 (idx rect x y)
      = (if use_split_variance = true then
          get_feature_center_buffer tiles x y buffer_pass_stride buffer_denoising_offset v_offset
            - get_feature_center_buffer tiles x y buffer_pass_stride buffer_denoising_offset
              m_offset / (sample : ℚ)
        else
          get_feature_center_buffer tiles x y buffer_pass_stride buffer_denoising_offset
            v_offset)
        / (get_feature_cross_divisor32 sample : ℚ) := by
  constructor
  · cases use_split_variance <;>
      simp only [kernel_filter_get_feature, hc, Bool.false_eq_true, if_false, if_true,
        Function.update_same]
  · cases use_split_variance <;>
      simp only [kernel_filter_get_feature, hc, Bool.false_eq_true, if_false, if_true,
        Function.update_same] <;>
      rfl

/-- The stores of the high-offset branch (lines 111-118). -/
theorem get_feature_high_eq (sample : Int) (tiles : TilesInfo) (m_offset v_offset : Int)
    (x y : Int) (mean variance : Int → ℚ) (rect : Int4)
    (buffer_pass_stride buffer_denoising_offset : Int)
    (use_cross_denoising use_split_variance : Bool)
    (hc : feature_case m_offset use_cross_denoising = FeatureCase.high) :
    (kernel_filter_get_feature sample tiles m_offset v_offset x y mean variance rect
        buffer_pass_stride buffer_denoising_offset use_cross_denoising
        use_split_variance).1 (idx rect x y)
      = get_feature_center_buffer tiles x y buffer_pass_stride buffer_denoising_offset m_offset
        / (get_feature_even_sample sample : ℚ) ∧
    (kernel_filter_get_feature sample tiles m_offset v_offset x y mean variance rect
        buffer_pass_stride buffer_denoising_offset use_cross_denoising
        use_split_variance).2 (idx rect x y)
      = (if use_split_variance = true then
          get_feature_center_buffer tiles x y buffer_pass_stride buffer_denoising_offset
              (v_offset - 6)
            - get_feature_center_buffer tiles x y buffer_pass_stride buffer_denoising_offset
              (m_offset - 6) / (sample : ℚ)
        else
          get_feature_center_buffer tiles x y buffer_pass_stride buffer_denoising_offset
            (v_offset - 6))
        / (get_feature_high_divisor32 sample : ℚ) := by
  constructor
  · cases use_split_variance <;>
      simp only [kernel_filter_get_feature, hc, Bool.false_eq_true, if_false, if_true,
        Function.update_same]
  · cases use_split_variance <;>
      simp only [kernel_filter_get_feature, hc, Bool.false_eq_true, if_false, if_true,
        Function.update_same] <;>
      rfl

/-- The stores of the default branch (lines 121-127); the split variance reads back the
`mean[idx]` just written. -/
theorem get_feature_default_eq (sample : Int) (tiles : TilesInfo) (m_offset v_offset : Int)
    (x y : Int) (mean variance : Int → ℚ) (rect : Int4)
    (buffer_pass_stride buffer_denoising_offset : Int)
    (use_cross_denoising use_split_variance : Bool)
    (hc : feature_case m_offset use_cross_denoising = FeatureCase.default) :
    (kernel_filter_get_feature sample tiles m_offset v_offset x y mean variance rect
        buffer_pass_stride buffer_denoising_offset use_cross_denoising
        use_split_variance).1 (idx rect x y)
      = get_feature_center_buffer tiles x y buffer_pass_stride buffer_denoising_offset m_offset
        / (sample : ℚ) ∧
    (kernel_filter_get_feature sample tiles m_offset v_offset x y mean variance rect
        buffer_pass_stride buffer_denoising_offset use_cross_denoising
        use_split_variance).2 (idx rect x y)
      = (if use_split_variance = true then
          get_feature_center_buffer tiles x y buffer_pass_stride buffer_denoising_offset v_offset
            - get_feature_center_buffer tiles x y buffer_pass_stride buffer_denoising_offset
              m_offset / (sample : ℚ)
        else
          get_feature_center_buffer tiles x y buffer_pass_stride buffer_denoising_offset
            v_offset)
        / (get_feature_default_divisor32 sample : ℚ) := by
  constructor
  · cases use_split_variance <;>
      simp only [kernel_filter_get_feature, hc, Bool.false_eq_true, if_false, if_true,
        Function.update_same]
  · cases use_split_variance <;>
      simp only [kernel_filter_get_feature, hc, Bool.false_eq_true, if_false, if_true,
        Function.update_same] <;>
      rfl

/-! ## Claims on `kernel_filter_get_feature` -/

/-- C4: `kernel_filter_get_feature` selects its case from `(m_offset, use_cross_denoising)`:
the cross-denoising case iff `20 ≤ m_offset ≤ 22` and `use_cross_denoising`; otherwise the
high-offset case iff `m_offset ≥ 26`, whatever the flag; otherwise the default case; and
the values the kernel stores to `mean[idx]` and `variance[idx]` are those of the selected
case. So 19 and 23..25 store the default mean for both flag values, 20..22 with the flag
off store the default mean, and `m_offset ≥ 26` never takes the cross-denoising case. -/
theorem get_feature_case_selection (sample : Int) (tiles : TilesInfo)
    (m_offset v_offset : Int) (x y : Int) (mean variance : Int → ℚ) (rect : Int4)
    (buffer_pass_stride buffer_denoising_offset : Int)
    (use_cross_denoising use_split_variance : Bool) :
    (feature_case m_offset use_cross_denoising = FeatureCase.cross ↔
      (20 ≤ m_offset ∧ m_offset ≤ 22 ∧ use_cross_denoising = true)) ∧
    (feature_case m_offset use_cross_denoising = FeatureCase.high ↔
      (¬ (20 ≤ m_offset ∧ m_offset ≤ 22 ∧ use_cross_denoising = true) ∧ 26 ≤ m_offset)) ∧
    (feature_case m_offset use_cross_denoising = FeatureCase.high ↔ 26 ≤ m_offset) ∧
    (feature_case m_offset use_cross_denoising = FeatureCase.default ↔
      (¬ (20 ≤ m_offset ∧ m_offset ≤ 22 ∧ use_cross_denoising = true) ∧ ¬ 26 ≤ m_offset)) ∧
    (kernel_filter_get_feature sample tiles m_offset v_offset x y mean variance rect
        buffer_pass_stride buffer_denoising_offset use_cross_denoising
        use_split_variance).1 (idx rect x y)
      = (if 20 ≤ m_offset ∧ m_offset ≤ 22 ∧ use_cross_denoising = true then
          (get_feature_center_buffer tiles x y buffer_pass_stride buffer_denoising_offset
              m_offset
            - get_feature_center_buffer tiles x y buffer_pass_stride buffer_denoising_offset
              (m_offset + 6))
          / (get_feature_odd_sample sample : ℚ)
        else if 26 ≤ m_offset then
          get_feature_center_buffer tiles x y buffer_pass_stride buffer_denoising_offset
            m_offset / (get_feature_even_sample sample : ℚ)
        else
          get_feature_center_buffer tiles x y buffer_pass_stride buffer_denoising_offset
            m_offset / (sample : ℚ)) ∧
    (kernel_filter_get_feature sample tiles m_offset v_offset x y mean variance rect
        buffer_pass_stride buffer_denoising_offset use_cross_denoising
        use_split_variance).2 (idx rect x y)
      = (if 20 ≤ m_offset ∧ m_offset ≤ 22 ∧ use_cross_denoising = true then
          (if use_split_variance = true then
            get_feature_center_buffer tiles x y buffer_pass_stride buffer_denoising_offset
                v_offset
              - get_feature_center_buffer tiles x y buffer_pass_stride
                buffer_denoising_offset m_offset / (sample : ℚ)
          else
            get_feature_center_buffer tiles x y buffer_pass_stride buffer_denoising_offset
              v_offset)
          / (get_feature_cross_divisor32 sample : ℚ)
        else if 26 ≤ m_offset then
          (if use_split_variance = true then
            get_feature_center_buffer tiles x y buffer_pass_stride buffer_denoising_offset
                (v_offset - 6)
              - get_feature_center_buffer tiles x y buffer_pass_stride
                buffer_denoising_offset (m_offset - 6) / (sample : ℚ)
          else
            get_feature_center_buffer tiles x y buffer_pass_stride buffer_denoising_offset
              (v_offset - 6))
          / (get_feature_high_divisor32 sample : ℚ)
        else
          (if use_split_variance = true then
            get_feature_center_buffer tiles x y buffer_pass_stride buffer_denoising_offset
                v_offset
              - get_feature_center_buffer tiles x y buffer_pass_stride
                buffer_denoising_offset m_offset / (sample : ℚ)
          else
            get_feature_center_buffer tiles x y buffer_pass_stride buffer_denoising_offset
              v_offset)
          / (get_feature_default_divisor32 sample : ℚ)) ∧
    ((m_offset = 19 ∨ (23 ≤ m_offset ∧ m_offset ≤ 25) ∨
        (20 ≤ m_offset ∧ m_offset ≤ 22 ∧ use_cross_denoising = false)) →
      feature_case m_offset use_cross_denoising = FeatureCase.default ∧
      (kernel_filter_get_feature sample tiles m_offset v_offset x y mean variance rect
          buffer_pass_stride buffer_denoising_offset use_cross_denoising
          use_split_variance).1 (idx rect x y)
        = get_feature_center_buffer tiles x y buffer_pass_stride buffer_denoising_offset
            m_offset / (sample : ℚ)) ∧
    (26 ≤ m_offset →
      feature_case m_offset use_cross_denoising ≠ FeatureCase.cross ∧
      (kernel_filter_get_feature sample tiles m_offset v_offset x y mean variance rect
          buffer_pass_stride buffer_denoising_offset use_cross_denoising
          use_split_variance).1 (idx rect x y)
        = get_feature_center_buffer tiles x y buffer_pass_stride buffer_denoising_offset
            m_offset / (get_feature_even_sample sample : ℚ)) := by
  refine ⟨feature_case_cross_iff _ _, ?_, feature_case_high_iff _ _,
    feature_case_default_iff _ _, ?_, ?_, ?_, ?_⟩
  · rw [feature_case_high_iff]
    exact ⟨fun h => ⟨by omega, h⟩, fun h => h.2⟩
  · by_cases h1 : 20 ≤ m_offset ∧ m_offset ≤ 22 ∧ use_cross_denoising = true
    · rw [if_pos h1]
      exact (get_feature_cross_eq sample tiles m_offset v_offset x y mean variance rect
        buffer_pass_stride buffer_denoising_offset use_cross_denoising use_split_variance
        ((feature_case_cross_iff _ _).2 h1)).1
    · rw [if_neg h1]
      by_cases h2 : 26 ≤ m_offset
      · rw [if_pos h2]
        exact (get_feature_high_eq sample tiles m_offset v_offset x y mean variance rect
          buffer_pass_stride buffer_denoising_offset use_cross_denoising use_split_variance
          ((feature_case_high_iff _ _).2 h2)).1
      · rw [if_neg h2]
        exact (get_feature_default_eq sample tiles m_offset v_offset x y mean variance rect
          buffer_pass_stride buffer_denoising_offset use_cross_denoising use_split_variance
          ((feature_case_default_iff _ _).2 ⟨h1, h2⟩)).1
  · by_cases h1 : 20 ≤ m_offset ∧ m_offset ≤ 22 ∧ use_cross_denoising = true
    · rw [if_pos h1]
      exact (get_feature_cross_eq sample tiles m_offset v_offset x y mean variance rect
        buffer_pass_stride buffer_denoising_offset use_cross_denoising use_split_variance
        ((feature_case_cross_iff _ _).2 h1)).2
    · rw [if_neg h1]
      by_cases h2 : 26 ≤ m_offset
      · rw [if_pos h2]
        exact (get_feature_high_eq sample tiles m_offset v_offset x y mean variance rect
          buffer_pass_stride buffer_denoising_offset use_cross_denoising use_split_variance
          ((feature_case_high_iff _ _).2 h2)).2
      · rw [if_neg h2]
        exact (get_feature_default_eq sample tiles m_offset v_offset x y mean variance rect
          buffer_pass_stride buffer_denoising_offset use_cross_denoising use_split_variance
          ((feature_case_default_iff _ _).2 ⟨h1, h2⟩)).2
  · intro h
    have hc : feature_case m_offset use_cross_denoising = FeatureCase.default := by
      rw [feature_case_default_iff]
      rcases h with h | h | h
      · omega
      · omega
      · obtain ⟨_, h22, hf⟩ := h
        rw [hf]
        simp
        omega
    exact ⟨hc, (get_feature_default_eq sample tiles m_offset v_offset x y mean variance rect
      buffer_pass_stride buffer_denoising_offset use_cross_denoising use_split_variance hc).1⟩
  · intro h
    refine ⟨?_, (get_feature_high_eq sample tiles m_offset v_offset x y mean variance rect
      buffer_pass_stride buffer_denoising_offset use_cross_denoising use_split_variance
      ((feature_case_high_iff _ _).2 h)).1⟩
    intro hc
    rw [feature_case_cross_iff] at hc
    omega

/-- C4, witness: on the sample mosaic (`buf[20] = 0`, `buf[26] = 1`) with `sample = 4`:
at `m_offset = 20` the flag decides between the cross-denoising mean `(0 - 1)/2` and the
default mean `0/4`; at `m_offset = 26` the mean is the high-offset one `1/2` with the flag
on; at `m_offset = 23` the mean is the default one `0/4` with the flag on. -/
theorem get_feature_case_selection_at_boundaries :
    (kernel_filter_get_feature 4 sample_tiles 20 23 0 0 (fun _ => 0) (fun _ => 0) sample_rect
        40 0 true false).1 (idx sample_rect 0 0) = -1 / 2 ∧
    (kernel_filter_get_feature 4 sample_tiles 20 23 0 0 (fun _ => 0) (fun _ => 0) sample_rect
        40 0 false false).1 (idx sample_rect 0 0) = 0 ∧
    (kernel_filter_get_feature 4 sample_tiles 26 32 0 0 (fun _ => 0) (fun _ => 0) sample_rect
        40 0 true false).1 (idx sample_rect 0 0) = 1 / 2 ∧
    (kernel_filter_get_feature 4 sample_tiles 23 24 0 0 (fun _ => 0) (fun _ => 0) sample_rect
        40 0 true false).1 (idx sample_rect 0 0) = 0 := by
  have hodd : get_feature_odd_sample 4 = 2 := by decide
  have heven : get_feature_even_sample 4 = 2 := by decide
  refine ⟨?_, ?_, ?_, ?_⟩
  · rw [(get_feature_case_selection 4 sample_tiles 20 23 0 0 (fun _ => 0) (fun _ => 0)
      sample_rect 40 0 true false).2.2.2.2.1, hodd]
    simp only [get_feature_center_buffer, tile, xtile, ytile, center_offset, sample_tiles]
    norm_num
  · rw [((get_feature_case_selection 4 sample_tiles 20 23 0 0 (fun _ => 0) (fun _ => 0)
      sample_rect 40 0 false false).2.2.2.2.2.2.1 (Or.inr (Or.inr ⟨by decide, by decide, rfl⟩))).2]
    simp only [get_feature_center_buffer, tile, xtile, ytile, center_offset, sample_tiles]
    norm_num
  · rw [((get_feature_case_selection 4 sample_tiles 26 32 0 0 (fun _ => 0) (fun _ => 0)
      sample_rect 40 0 true false).2.2.2.2.2.2.2 (by decide)).2, heven]
    simp only [get_feature_center_buffer, tile, xtile, ytile, center_offset, sample_tiles]
    norm_num
  · rw [((get_feature_case_selection 4 sample_tiles 23 24 0 0 (fun _ => 0) (fun _ => 0)
      sample_rect 40 0 true false).2.2.2.2.2.2.1 (Or.inr (Or.inl ⟨by decide, by decide⟩))).2]
    simp only [get_feature_center_buffer, tile, xtile, ytile, center_offset, sample_tiles]
    norm_num

/-- C5, as amended: in the high-offset case (`m_offset ≥ 26`) with
`even_count = (sample+1)/2`: `mean[idx] = buf[m_offset] / even_count`; without split
variance `variance[idx] = buf[v_offset-6] / d`, with split variance
`variance[idx] = (buf[v_offset-6] - buf[m_offset-6]/sample) / d`, where `d` is the 32-bit
int product `even_count*(sample-1)`: the subtracted term is the slot six below the mean
offset divided by `sample`. For `2 ≤ sample ≤ 65536` no divisor is zero,
`even_count = ceil(sample/2)` and `d` is the exact product `even_count*(sample-1)`. -/
theorem get_feature_high_offset (sample : Int) (tiles : TilesInfo) (m_offset v_offset : Int)
    (x y : Int) (mean variance : Int → ℚ) (rect : Int4)
    (buffer_pass_stride buffer_denoising_offset : Int) (use_cross_denoising : Bool)
    (hm : 26 ≤ m_offset) :
    (∀ use_split_variance : Bool,
      (kernel_filter_get_feature sample tiles m_offset v_offset x y mean variance rect
          buffer_pass_stride buffer_denoising_offset use_cross_denoising
          use_split_variance).1 (idx rect x y)
        = get_feature_center_buffer tiles x y buffer_pass_stride buffer_denoising_offset m_offset
          / (get_feature_even_sample sample : ℚ)) ∧
    (kernel_filter_get_feature sample tiles m_offset v_offset x y mean variance rect
        buffer_pass_stride buffer_denoising_offset use_cross_denoising false).2 (idx rect x y)
      = get_feature_center_buffer tiles x y buffer_pass_stride buffer_denoising_offset
          (v_offset - 6)
        / (get_feature_high_divisor32 sample : ℚ) ∧
    (kernel_filter_get_feature sample tiles m_offset v_offset x y mean variance rect
        buffer_pass_stride buffer_denoising_offset use_cross_denoising true).2 (idx rect x y)
      = (get_feature_center_buffer tiles x y buffer_pass_stride buffer_denoising_offset
            (v_offset - 6)
          - get_feature_center_buffer tiles x y buffer_pass_stride buffer_denoising_offset
            (m_offset - 6) / (sample : ℚ))
        / (get_feature_high_divisor32 sample : ℚ) ∧
    (2 ≤ sample → sample ≤ 65536 →
      get_feature_even_sample sample = ⌈(sample : ℚ) / 2⌉ ∧
      (kernel_filter_get_feature sample tiles m_offset v_offset x y mean variance rect
          buffer_pass_stride buffer_denoising_offset use_cross_denoising false).2 (idx rect x y)
        = get_feature_center_buffer tiles x y buffer_pass_stride buffer_denoising_offset
            (v_offset - 6)
          / ((get_feature_even_sample sample : ℚ) * ((sample : ℚ) - 1)) ∧
      (kernel_filter_get_feature sample tiles m_offset v_offset x y mean variance rect
          buffer_pass_stride buffer_denoising_offset use_cross_denoising true).2 (idx rect x y)
        = (get_feature_center_buffer tiles x y buffer_pass_stride buffer_denoising_offset
              (v_offset - 6)
            - get_feature_center_buffer tiles x y buffer_pass_stride buffer_denoising_offset
              (m_offset - 6) / (sample : ℚ))
          / ((get_feature_even_sample sample : ℚ) * ((sample : ℚ) - 1)) ∧
      (get_feature_even_sample sample : ℚ) ≠ 0 ∧ (sample : ℚ) ≠ 0 ∧
      (get_feature_even_sample sample : ℚ) * ((sample : ℚ) - 1) ≠ 0) := by
  have hc : feature_case m_offset use_cross_denoising = FeatureCase.high :=
    (feature_case_high_iff m_offset use_cross_denoising).2 hm
  have hf := get_feature_high_eq sample tiles m_offset v_offset x y mean variance rect
    buffer_pass_stride buffer_denoising_offset use_cross_denoising false hc
  have ht := get_feature_high_eq sample tiles m_offset v_offset x y mean variance rect
    buffer_pass_stride buffer_denoising_offset use_cross_denoising true hc
  simp only [Bool.false_eq_true, if_false] at hf
  simp only [if_true] at ht
  refine ⟨?_, hf.2, ht.2, ?_⟩
  · intro us
    exact (get_feature_high_eq sample tiles m_offset v_offset x y mean variance rect
      buffer_pass_stride buffer_denoising_offset use_cross_denoising us hc).1
  · intro h2 hmax
    obtain ⟨e, hpos, hceil, hepos⟩ := get_feature_high_divisor32_exact sample h2 hmax
    have ecast : (get_feature_high_divisor32 sample : ℚ)
        = (get_feature_even_sample sample : ℚ) * ((sample : ℚ) - 1) := by
      rw [e]
      push_cast
      ring
    have hne : (get_feature_even_sample sample : ℚ) * ((sample : ℚ) - 1) ≠ 0 := by
      rw [← ecast, e]
      exact_mod_cast ne_of_gt hpos
    refine ⟨hceil, by rw [hf.2, ecast], by rw [ht.2, ecast], ?_, ?_, hne⟩
    · exact_mod_cast ne_of_gt hepos
    · have : sample ≠ 0 := by omega
      exact_mod_cast this

/-- C5, witness of the amended statement: `m_offset = 26`, `sample = 4` on the sample
mosaic, without split variance. -/
theorem get_feature_high_offset_at_26 :
    ((26 : Int) ≤ 26 ∧ (2 : Int) ≤ 4 ∧ (4 : Int) ≤ 65536) ∧
    (kernel_filter_get_feature 4 sample_tiles 26 32 0 0 (fun _ => 0) (fun _ => 0) sample_rect
        40 0 false false).2 (idx sample_rect 0 0)
      = get_feature_center_buffer sample_tiles 0 0 40 0 (32 - 6)
        / ((get_feature_even_sample 4 : ℚ) * (((4 : Int) : ℚ) - 1)) :=
  ⟨by decide, ((get_feature_high_offset 4 sample_tiles 26 32 0 0 (fun _ => 0) (fun _ => 0)
    sample_rect 40 0 false (by decide)).2.2.2 (by decide) (by decide)).2.1⟩

/-- C5, counterexample: at `m_offset = 26`, `v_offset = 33`, `sample = 2`, split variance on,
with `buf[26] = 1` and `buf[20] = buf[27] = 0`, the call writes `mean[idx] = 1` and
`variance[idx] = 0`, while `(buf[v_offset-6] - mean[idx]) / (even_count*(sample-1))` is `-1`.
At `sample = 65537` on the mosaic of ones, without split variance, `even_count = 32769` and
the int product `32769*65536` overflows to a negative divisor, so `variance[idx]` is not
`buf[v_offset-6] / (even_count*(sample-1))`. -/
theorem get_feature_high_offset_not_mean :
    (26 : Int) ≤ 26 ∧
    (kernel_filter_get_feature 2 sample_tiles 26 33 0 0 (fun _ => 0) (fun _ => 0) sample_rect
        40 0 false true).1 (idx sample_rect 0 0) = 1 ∧
    (kernel_filter_get_feature 2 sample_tiles 26 33 0 0 (fun _ => 0) (fun _ => 0) sample_rect
        40 0 false true).2 (idx sample_rect 0 0) = 0 ∧
    (kernel_filter_get_feature 2 sample_tiles 26 33 0 0 (fun _ => 0) (fun _ => 0) sample_rect
        40 0 false true).2 (idx sample_rect 0 0)
      ≠ (get_feature_center_buffer sample_tiles 0 0 40 0 (33 - 6)
          - (kernel_filter_get_feature 2 sample_tiles 26 33 0 0 (fun _ => 0) (fun _ => 0)
              sample_rect 40 0 false true).1 (idx sample_rect 0 0))
        / ((get_feature_even_sample 2 : ℚ) * (((2 : Int) : ℚ) - 1)) ∧
    get_feature_even_sample 65537 = 32769 ∧
    (kernel_filter_get_feature 65537 ones_tiles 26 32 0 0 (fun _ => 0) (fun _ => 0) sample_rect
        40 0 false false).2 (idx sample_rect 0 0)
      ≠ get_feature_center_buffer ones_tiles 0 0 40 0 (32 - 6)
        / ((get_feature_even_sample 65537 : ℚ) * (((65537 : Int) : ℚ) - 1)) := by
  have hc : feature_case 26 false = FeatureCase.high := by decide
  have he : get_feature_even_sample 2 = 1 := by decide
  have he2 : get_feature_even_sample 65537 = 32769 := by decide
  have hd : get_feature_high_divisor32 2 = 1 := by decide
  have hd2 : get_feature_high_divisor32 65537 = -2147418112 := by decide
  have k1 := get_feature_high_eq 2 sample_tiles 26 33 0 0 (fun _ => 0) (fun _ => 0)
    sample_rect 40 0 false true hc
  have k2 := get_feature_high_eq 65537 ones_tiles 26 32 0 0 (fun _ => 0) (fun _ => 0)
    sample_rect 40 0 false false hc
  rw [k1.1, k1.2, k2.2, he, he2, hd, hd2]
  simp only [get_feature_center_buffer, tile, xtile, ytile, center_offset, sample_tiles,
    ones_tiles]
  norm_num

/-- C9, as amended: in the cross-denoising case (`20 ≤ m_offset ≤ 22` and
`use_cross_denoising`) with `odd_count = sample/2`:
`mean[idx] = (buf[m_offset] - buf[m_offset+6]) / odd_count`; without split variance
`variance[idx] = buf[v_offset] / d`, with split variance
`variance[idx] = (buf[v_offset] - buf[m_offset]/sample) / d`, where `d` is the 32-bit int
product `odd_count*(sample-1)`. For `2 ≤ sample ≤ 65536` no divisor is zero,
`odd_count = floor(sample/2)` and `d` is the exact product `odd_count*(sample-1)`. -/
theorem get_feature_cross_denoising (sample : Int) (tiles : TilesInfo) (m_offset v_offset : Int)
    (x y : Int) (mean variance : Int → ℚ) (rect : Int4)
    (buffer_pass_stride buffer_denoising_offset : Int)
    (hlo : 20 ≤ m_offset) (hhi : m_offset ≤ 22) :
    (∀ use_split_variance : Bool,
      (kernel_filter_get_feature sample tiles m_offset v_offset x y mean variance rect
          buffer_pass_stride buffer_denoising_offset true use_split_variance).1 (idx rect x y)
        = (get_feature_center_buffer tiles x y buffer_pass_stride buffer_denoising_offset
              m_offset
            - get_feature_center_buffer tiles x y buffer_pass_stride buffer_denoising_offset
              (m_offset + 6))
          / (get_feature_odd_sample sample : ℚ)) ∧
    (kernel_filter_get_feature sample tiles m_offset v_offset x y mean variance rect
        buffer_pass_stride buffer_denoising_offset true false).2 (idx rect x y)
      = get_feature_center_buffer tiles x y buffer_pass_stride buffer_denoising_offset v_offset
        / (get_feature_cross_divisor32 sample : ℚ) ∧
    (kernel_filter_get_feature sample tiles m_offset v_offset x y mean variance rect
        buffer_pass_stride buffer_denoising_offset true true).2 (idx rect x y)
      = (get_feature_center_buffer tiles x y buffer_pass_stride buffer_denoising_offset v_offset
          - get_feature_center_buffer tiles x y buffer_pass_stride buffer_denoising_offset
            m_offset / (sample : ℚ))
        / (get_feature_cross_divisor32 sample : ℚ) ∧
    (2 ≤ sample → sample ≤ 65536 →
      get_feature_odd_sample sample = ⌊(sample : ℚ) / 2⌋ ∧
      (kernel_filter_get_feature sample tiles m_offset v_offset x y mean variance rect
          buffer_pass_stride buffer_denoising_offset true false).2 (idx rect x y)
        = get_feature_center_buffer tiles x y buffer_pass_stride buffer_denoising_offset
            v_offset
          / ((get_feature_odd_sample sample : ℚ) * ((sample : ℚ) - 1)) ∧
      (kernel_filter_get_feature sample tiles m_offset v_offset x y mean variance rect
          buffer_pass_stride buffer_denoising_offset true true).2 (idx rect x y)
        = (get_feature_center_buffer tiles x y buffer_pass_stride buffer_denoising_offset
              v_offset
            - get_feature_center_buffer tiles x y buffer_pass_stride buffer_denoising_offset
              m_offset / (sample : ℚ))
          / ((get_feature_odd_sample sample : ℚ) * ((sample : ℚ) - 1)) ∧
      (get_feature_odd_sample sample : ℚ) ≠ 0 ∧ (sample : ℚ) ≠ 0 ∧
      (get_feature_odd_sample sample : ℚ) * ((sample : ℚ) - 1) ≠ 0) := by
  have hc : feature_case m_offset true = FeatureCase.cross :=
    (feature_case_cross_iff m_offset true).2 ⟨hlo, hhi, rfl⟩
  have hf := get_feature_cross_eq sample tiles m_offset v_offset x y mean variance rect
    buffer_pass_stride buffer_denoising_offset true false hc
  have ht := get_feature_cross_eq sample tiles m_offset v_offset x y mean variance rect
    buffer_pass_stride buffer_denoising_offset true true hc
  simp only [Bool.false_eq_true, if_false] at hf
  simp only [if_true] at ht
  refine ⟨?_, hf.2, ht.2, ?_⟩
  · intro us
    exact (get_feature_cross_eq sample tiles m_offset v_offset x y mean variance rect
      buffer_pass_stride buffer_denoising_offset true us hc).1
  · intro h2 hmax
    obtain ⟨e, hpos, hfloor, hopos⟩ := get_feature_cross_divisor32_exact sample h2 hmax
    have ecast : (get_feature_cross_divisor32 sample : ℚ)
        = (get_feature_odd_sample sample : ℚ) * ((sample : ℚ) - 1) := by
      rw [e]
      push_cast
      ring
    have hne : (get_feature_odd_sample sample : ℚ) * ((sample : ℚ) - 1) ≠ 0 := by
      rw [← ecast, e]
      exact_mod_cast ne_of_gt hpos
    refine ⟨hfloor, by rw [hf.2, ecast], by rw [ht.2, ecast], ?_, ?_, hne⟩
    · exact_mod_cast ne_of_gt hopos
    · have : sample ≠ 0 := by omega
      exact_mod_cast this

/-- C9, witness of the amended statement: `m_offset = 20`, `sample = 4` on the sample
mosaic, without split variance. -/
theorem get_feature_cross_denoising_at_20 :
    ((20 : Int) ≤ 20 ∧ (20 : Int) ≤ 22 ∧ (2 : Int) ≤ 4 ∧ (4 : Int) ≤ 65536) ∧
    (kernel_filter_get_feature 4 sample_tiles 20 23 0 0 (fun _ => 0) (fun _ => 0) sample_rect
        40 0 true false).2 (idx sample_rect 0 0)
      = get_feature_center_buffer sample_tiles 0 0 40 0 23
        / ((get_feature_odd_sample 4 : ℚ) * (((4 : Int) : ℚ) - 1)) :=
  ⟨by decide, ((get_feature_cross_denoising 4 sample_tiles 20 23 0 0 (fun _ => 0)
    (fun _ => 0) sample_rect 40 0 (by decide) (by decide)).2.2.2 (by decide) (by decide)).2.1⟩

/-- C9, counterexample: at `m_offset = 20`, `v_offset = 23`, `sample = 65537` on the mosaic
of ones, cross denoising on, without split variance: `odd_count = 32768` and the int
product `32768*65536 = 2^31` overflows to `-2^31`, so the stored `variance[idx]` is
`1/(-2^31)`, not `buf[v_offset] / (odd_count*(sample-1)) = 1/2^31`. -/
theorem get_feature_cross_denoising_overflow :
    ((20 : Int) ≤ 20 ∧ (20 : Int) ≤ 22) ∧
    get_feature_odd_sample 65537 = 32768 ∧
    (kernel_filter_get_feature 65537 ones_tiles 20 23 0 0 (fun _ => 0) (fun _ => 0) sample_rect
        40 0 true false).2 (idx sample_rect 0 0) = 1 / (-2147483648) ∧
    (kernel_filter_get_feature 65537 ones_tiles 20 23 0 0 (fun _ => 0) (fun _ => 0) sample_rect
        40 0 true false).2 (idx sample_rect 0 0)
      ≠ get_feature_center_buffer ones_tiles 0 0 40 0 23
        / ((get_feature_odd_sample 65537 : ℚ) * (((65537 : Int) : ℚ) - 1)) := by
  have hc : feature_case 20 true = FeatureCase.cross := by decide
  have ho : get_feature_odd_sample 65537 = 32768 := by decide
  have hd : get_feature_cross_divisor32 65537 = -2147483648 := by decide
  have k := get_feature_cross_eq 65537 ones_tiles 20 23 0 0 (fun _ => 0) (fun _ => 0)
    sample_rect 40 0 true false hc
  rw [k.2, ho, hd]
  simp only [get_feature_center_buffer, tile, xtile, ytile, center_offset, ones_tiles]
  norm_num

/-- C10, as amended: in the default case (neither the cross-denoising nor the high-offset
case applies): `mean[idx] = buf[m_offset] / sample`; without split variance
`variance[idx] = buf[v_offset] / d`, with split variance
`variance[idx] = (buf[v_offset] - mean[idx]) / d`, `mean[idx]` being the value just
written and `d` the 32-bit int product `sample*(sample-1)`. For `2 ≤ sample ≤ 46341` no
divisor is zero and `d` is the exact product `sample*(sample-1)`. -/
theorem get_feature_default (sample : Int) (tiles : TilesInfo) (m_offset v_offset : Int)
    (x y : Int) (mean variance : Int → ℚ) (rect : Int4)
    (buffer_pass_stride buffer_denoising_offset : Int) (use_cross_denoising : Bool)
    (hcross : ¬ (20 ≤ m_offset ∧ m_offset ≤ 22 ∧ use_cross_denoising = true))
    (hhigh : ¬ 26 ≤ m_offset) :
    (∀ use_split_variance : Bool,
      (kernel_filter_get_feature sample tiles m_offset v_offset x y mean variance rect
          buffer_pass_stride buffer_denoising_offset use_cross_denoising
          use_split_variance).1 (idx rect x y)
        = get_feature_center_buffer tiles x y buffer_pass_stride buffer_denoising_offset m_offset
          / (sample : ℚ)) ∧
    (kernel_filter_get_feature sample tiles m_offset v_offset x y mean variance rect
        buffer_pass_stride buffer_denoising_offset use_cross_denoising false).2 (idx rect x y)
      = get_feature_center_buffer tiles x y buffer_pass_stride buffer_denoising_offset v_offset
        / (get_feature_default_divisor32 sample : ℚ) ∧
    (kernel_filter_get_feature sample tiles m_offset v_offset x y mean variance rect
        buffer_pass_stride buffer_denoising_offset use_cross_denoising true).2 (idx rect x y)
      = (get_feature_center_buffer tiles x y buffer_pass_stride buffer_denoising_offset v_offset
          - (kernel_filter_get_feature sample tiles m_offset v_offset x y mean variance rect
              buffer_pass_stride buffer_denoising_offset use_cross_denoising true).1
                (idx rect x y))
        / (get_feature_default_divisor32 sample : ℚ) ∧
    (2 ≤ sample → sample ≤ 46341 →
      (kernel_filter_get_feature sample tiles m_offset v_offset x y mean variance rect
          buffer_pass_stride buffer_denoising_offset use_cross_denoising false).2 (idx rect x y)
        = get_feature_center_buffer tiles x y buffer_pass_stride buffer_denoising_offset
            v_offset
          / ((sample : ℚ) * ((sample : ℚ) - 1)) ∧
      (kernel_filter_get_feature sample tiles m_offset v_offset x y mean variance rect
          buffer_pass_stride buffer_denoising_offset use_cross_denoising true).2 (idx rect x y)
        = (get_feature_center_buffer tiles x y buffer_pass_stride buffer_denoising_offset
              v_offset
            - (kernel_filter_get_feature sample tiles m_offset v_offset x y mean variance rect
                buffer_pass_stride buffer_denoising_offset use_cross_denoising true).1
                  (idx rect x y))
          / ((sample : ℚ) * ((sample : ℚ) - 1)) ∧
      (sample : ℚ) ≠ 0 ∧ (sample : ℚ) * ((sample : ℚ) - 1) ≠ 0) := by
  have hc : feature_case m_offset use_cross_denoising = FeatureCase.default :=
    (feature_case_default_iff m_offset use_cross_denoising).2 ⟨hcross, hhigh⟩
  have hf := get_feature_default_eq sample tiles m_offset v_offset x y mean variance rect
    buffer_pass_stride buffer_denoising_offset use_cross_denoising false hc
  have ht := get_feature_default_eq sample tiles m_offset v_offset x y mean variance rect
    buffer_pass_stride buffer_denoising_offset use_cross_denoising true hc
  simp only [Bool.false_eq_true, if_false] at hf
  simp only [if_true] at ht
  have ht2 : (kernel_filter_get_feature sample tiles m_offset v_offset x y mean variance rect
        buffer_pass_stride buffer_denoising_offset use_cross_denoising true).2 (idx rect x y)
      = (get_feature_center_buffer tiles x y buffer_pass_stride buffer_denoising_offset v_offset
          - (kernel_filter_get_feature sample tiles m_offset v_offset x y mean variance rect
              buffer_pass_stride buffer_denoising_offset use_cross_denoising true).1
                (idx rect x y))
        / (get_feature_default_divisor32 sample : ℚ) := by
    rw [ht.2, ht.1]
  refine ⟨?_, hf.2, ht2, ?_⟩
  · intro us
    exact (get_feature_default_eq sample tiles m_offset v_offset x y mean variance rect
      buffer_pass_stride buffer_denoising_offset use_cross_denoising us hc).1
  · intro h2 hmax
    obtain ⟨e, hpos⟩ := get_feature_default_divisor32_exact sample h2 hmax
    have ecast : (get_feature_default_divisor32 sample : ℚ)
        = (sample : ℚ) * ((sample : ℚ) - 1) := by
      rw [e]
      push_cast
      ring
    have hne : (sample : ℚ) * ((sample : ℚ) - 1) ≠ 0 := by
      rw [← ecast, e]
      exact_mod_cast ne_of_gt hpos
    refine ⟨by rw [hf.2, ecast], by rw [ht2, ecast], ?_, hne⟩
    have : sample ≠ 0 := by omega
    exact_mod_cast this

/-- C10, witness of the amended statement: `m_offset = 23` with cross denoising on,
`sample = 4`, without split variance. -/
theorem get_feature_default_at_23 :
    (¬ ((20 : Int) ≤ 23 ∧ (23 : Int) ≤ 22 ∧ true = true) ∧ ¬ (26 : Int) ≤ 23 ∧
      (2 : Int) ≤ 4 ∧ (4 : Int) ≤ 46341) ∧
    (kernel_filter_get_feature 4 sample_tiles 23 24 0 0 (fun _ => 0) (fun _ => 0) sample_rect
        40 0 true false).2 (idx sample_rect 0 0)
      = get_feature_center_buffer sample_tiles 0 0 40 0 24
        / ((((4 : Int) : ℚ)) * (((4 : Int) : ℚ) - 1)) :=
  ⟨by decide, ((get_feature_default 4 sample_tiles 23 24 0 0 (fun _ => 0)
    (fun _ => 0) sample_rect 40 0 true (by decide) (by decide)).2.2.2 (by decide)
    (by decide)).1⟩

/-- C10, counterexample: at `m_offset = 23`, `v_offset = 24` on the mosaic of ones, without
split variance: with `sample = 65537` the int product `65537*65536` overflows to `65536`
and the stored `variance[idx]` is `1/65536`, not `1/(65537*65536)`; with `sample = 46342`,
the first count past the exact range, the product overflows to a negative divisor. -/
theorem get_feature_default_overflow :
    (¬ ((20 : Int) ≤ 23 ∧ (23 : Int) ≤ 22 ∧ false = true) ∧ ¬ (26 : Int) ≤ 23) ∧
    (kernel_filter_get_feature 65537 ones_tiles 23 24 0 0 (fun _ => 0) (fun _ => 0) sample_rect
        40 0 false false).2 (idx sample_rect 0 0) = 1 / 65536 ∧
    (kernel_filter_get_feature 65537 ones_tiles 23 24 0 0 (fun _ => 0) (fun _ => 0) sample_rect
        40 0 false false).2 (idx sample_rect 0 0)
      ≠ get_feature_center_buffer ones_tiles 0 0 40 0 24
        / ((((65537 : Int) : ℚ)) * (((65537 : Int) : ℚ) - 1)) ∧
    (kernel_filter_get_feature 46342 ones_tiles 23 24 0 0 (fun _ => 0) (fun _ => 0) sample_rect
        40 0 false false).2 (idx sample_rect 0 0)
      ≠ get_feature_center_buffer ones_tiles 0 0 40 0 24
        / ((((46342 : Int) : ℚ)) * (((46342 : Int) : ℚ) - 1)) := by
  have hc : feature_case 23 false = FeatureCase.default := by decide
  have hd : get_feature_default_divisor32 65537 = 65536 := by decide
  have hd2 : get_feature_default_divisor32 46342 = -2147432674 := by decide
  have k := get_feature_default_eq 65537 ones_tiles 23 24 0 0 (fun _ => 0) (fun _ => 0)
    sample_rect 40 0 false false hc
  have k2 := get_feature_default_eq 46342 ones_tiles 23 24 0 0 (fun _ => 0) (fun _ => 0)
    sample_rect 40 0 false false hc
  rw [k.2, k2.2, hd, hd2]
  simp only [get_feature_center_buffer, tile, xtile, ytile, center_offset, ones_tiles]
  norm_num

/-! ## Claim on `sampleVarianceV` -/

/-- C7, as amended: `kernel_filter_divide_shadow` stores
`sampleVarianceV[idx] = 0.5*(varA - varB)^2 / d` with `varA`, `varB` the two half variances
of the call and `d` the 32-bit int product `sample*sample`. For `4 ≤ sample ≤ 46340` none
of the divisors `odd_count - 1`, `even_count - 1`, `sample*sample` is zero, `d` is the
exact `sample^2`, so `sampleVarianceV[idx] = 0.5*(varA - varB)^2 / sample^2`, and
`sampleVarianceV[idx] = 0` whenever `varA = varB`, under either variance policy. -/
theorem divide_shadow_sampleVarianceV (sample : Int) (tiles : TilesInfo) (x y : Int)
    (out : ShadowBuffers) (rect : Int4) (buffer_pass_stride buffer_denoising_offset : Int)
    (use_gradients use_split_variance : Bool) :
    (kernel_filter_divide_shadow sample tiles x y out rect buffer_pass_stride
        buffer_denoising_offset use_gradients use_split_variance).2.sampleVarianceV (idx rect x y)
      = (1 / 2) *
        (divide_shadow_varA sample
            (divide_shadow_center_buffer tiles x y buffer_pass_stride buffer_denoising_offset
              use_gradients)
            ((kernel_filter_divide_shadow sample tiles x y out rect buffer_pass_stride
              buffer_denoising_offset use_gradients use_split_variance).2.unfilteredA
                (idx rect x y)) use_split_variance
          - divide_shadow_varB sample
            (divide_shadow_center_buffer tiles x y buffer_pass_stride buffer_denoising_offset
              use_gradients)
            ((kernel_filter_divide_shadow sample tiles x y out rect buffer_pass_stride
              buffer_denoising_offset use_gradients use_split_variance).2.unfilteredB
                (idx rect x y)) use_split_variance) ^ 2
        / (divide_shadow_divisor32 sample : ℚ) ∧
    (4 ≤ sample → sample ≤ 46340 →
      (kernel_filter_divide_shadow sample tiles x y out rect buffer_pass_stride
          buffer_denoising_offset use_gradients use_split_variance).2.sampleVarianceV
            (idx rect x y)
        = (1 / 2) *
          (divide_shadow_varA sample
              (divide_shadow_center_buffer tiles x y buffer_pass_stride
                buffer_denoising_offset use_gradients)
              ((kernel_filter_divide_shadow sample tiles x y out rect buffer_pass_stride
                buffer_denoising_offset use_gradients use_split_variance).2.unfilteredA
                  (idx rect x y)) use_split_variance
            - divide_shadow_varB sample
              (divide_shadow_center_buffer tiles x y buffer_pass_stride
                buffer_denoising_offset use_gradients)
              ((kernel_filter_divide_shadow sample tiles x y out rect buffer_pass_stride
                buffer_denoising_offset use_gradients use_split_variance).2.unfilteredB
                  (idx rect x y)) use_split_variance) ^ 2
          / (sample : ℚ) ^ 2 ∧
      (((divide_shadow_odd_sample sample - 1 : Int) : ℚ) ≠ 0 ∧
        ((divide_shadow_even_sample sample - 1 : Int) : ℚ) ≠ 0 ∧ (sample : ℚ) ^ 2 ≠ 0) ∧
      (divide_shadow_varA sample
          (divide_shadow_center_buffer tiles x y buffer_pass_stride buffer_denoising_offset
            use_gradients)
          ((kernel_filter_divide_shadow sample tiles x y out rect buffer_pass_stride
            buffer_denoising_offset use_gradients use_split_variance).2.unfilteredA
              (idx rect x y)) use_split_variance
        = divide_shadow_varB sample
          (divide_shadow_center_buffer tiles x y buffer_pass_stride buffer_denoising_offset
            use_gradients)
          ((kernel_filter_divide_shadow sample tiles x y out rect buffer_pass_stride
            buffer_denoising_offset use_gradients use_split_variance).2.unfilteredB
              (idx rect x y)) use_split_variance →
        (kernel_filter_divide_shadow sample tiles x y out rect buffer_pass_stride
          buffer_denoising_offset use_gradients use_split_variance).2.sampleVarianceV
            (idx rect x y) = 0)) := by
  have hform : (kernel_filter_divide_shadow sample tiles x y out rect buffer_pass_stride
        buffer_denoising_offset use_gradients use_split_variance).2.sampleVarianceV (idx rect x y)
      = (1 / 2) *
        (divide_shadow_varA sample
            (divide_shadow_center_buffer tiles x y buffer_pass_stride buffer_denoising_offset
              use_gradients)
            ((kernel_filter_divide_shadow sample tiles x y out rect buffer_pass_stride
              buffer_denoising_offset use_gradients use_split_variance).2.unfilteredA
                (idx rect x y)) use_split_variance
          - divide_shadow_varB sample
            (divide_shadow_center_buffer tiles x y buffer_pass_stride buffer_denoising_offset
              use_gradients)
            ((kernel_filter_divide_shadow sample tiles x y out rect buffer_pass_stride
              buffer_denoising_offset use_gradients use_split_variance).2.unfilteredB
                (idx rect x y)) use_split_variance) ^ 2
        / (divide_shadow_divisor32 sample : ℚ) := by
    simp only [kernel_filter_divide_shadow, Function.update_same, divide_shadow_divisor32]
    ring
  refine ⟨hform, ?_⟩
  intro h4 hmax
  obtain ⟨e, ho, he, hs, -⟩ := divide_shadow_divisors_of_range sample h4 hmax
  have ecast : (divide_shadow_divisor32 sample : ℚ) = (sample : ℚ) ^ 2 := by
    rw [e]
    push_cast
    ring
  refine ⟨by rw [hform, ecast], ⟨ho, he, pow_ne_zero 2 hs⟩, ?_⟩
  intro hv
  rw [hform, hv]
  simp

/-- C7, witness of the amended statement: on the sample mosaic with `sample = 4` and no
split variance both half variances are `0` (slots 16 and 19 hold 0, the divisors are 1 and
1), and `sampleVarianceV[idx] = 0`. -/
theorem divide_shadow_sampleVarianceV_at_sample :
    ((4 : Int) ≤ 4 ∧ (4 : Int) ≤ 46340) ∧
    (kernel_filter_divide_shadow 4 sample_tiles 0 0 zero_buffers sample_rect 40 0
        false false).2.sampleVarianceV (idx sample_rect 0 0) = 0 :=
  ⟨by decide, ((divide_shadow_sampleVarianceV 4 sample_tiles 0 0 zero_buffers sample_rect 40 0
    false false).2 (by decide) (by decide)).2.2 (by
      simp only [divide_shadow_varA, divide_shadow_varB, divide_shadow_center_buffer,
        divide_shadow_tiles, tile, xtile, ytile, center_offset, sample_tiles]
      norm_num)⟩

/-- C7, counterexample: at `sample = 46341` on the mosaic of ones, without split variance,
`varA = 1/23170` and `varB = 1/23169`, the int product `46341*46341` overflows to
`-2147479015`, and the stored `sampleVarianceV[idx]` is negative, so it is not
`0.5*(varA - varB)^2 / sample^2`. At `sample = 2` both divisors `odd_count - 1` and
`even_count - 1` of the half variances are zero. -/
theorem divide_shadow_sampleVarianceV_overflow :
    divide_shadow_divisor32 46341 = -2147479015 ∧
    (kernel_filter_divide_shadow 46341 ones_tiles 0 0 zero_buffers sample_rect 40 0
        false false).2.sampleVarianceV (idx sample_rect 0 0) < 0 ∧
    (kernel_filter_divide_shadow 46341 ones_tiles 0 0 zero_buffers sample_rect 40 0
        false false).2.sampleVarianceV (idx sample_rect 0 0)
      ≠ (1 / 2) *
        (divide_shadow_varA 46341 (divide_shadow_center_buffer ones_tiles 0 0 40 0 false)
            ((kernel_filter_divide_shadow 46341 ones_tiles 0 0 zero_buffers sample_rect 40 0
              false false).2.unfilteredA (idx sample_rect 0 0)) false
          - divide_shadow_varB 46341 (divide_shadow_center_buffer ones_tiles 0 0 40 0 false)
            ((kernel_filter_divide_shadow 46341 ones_tiles 0 0 zero_buffers sample_rect 40 0
              false false).2.unfilteredB (idx sample_rect 0 0)) false) ^ 2
        / (((46341 : Int) : ℚ)) ^ 2 ∧
    (divide_shadow_odd_sample 2 - 1 = 0 ∧ divide_shadow_even_sample 2 - 1 = 0) := by
  have hd : divide_shadow_divisor32 46341 = -2147479015 := by decide
  have hw : wrap_int32 (46341 * 46341) = -2147479015 := hd
  have ho : divide_shadow_odd_sample 46341 = 23171 := by decide
  have he : divide_shadow_even_sample 46341 = 23170 := by decide
  refine ⟨hd, ?_, ?_, by decide⟩
  · simp only [kernel_filter_divide_shadow, Function.update_same, divide_shadow_varA,
      divide_shadow_varB, divide_shadow_center_buffer, divide_shadow_tiles, ones_tiles, hw, ho,
      he]
    norm_num
  · simp only [kernel_filter_divide_shadow, Function.update_same, divide_shadow_varA,
      divide_shadow_varB, divide_shadow_center_buffer, divide_shadow_tiles, ones_tiles, hw, ho,
      he]
    norm_num

end FilterPrefilter
